import Mathlib

/-!
# Verification of the SQL policy validator and the evidence/statistics engine

Shallow embedding of the deterministic core of the repository:

* `src/services/query_checker.py` — the SQL policy validator (`check_query`
  and its regular-expression helpers), modelled as executable functions over
  `List Char`.  Python regular expressions are translated into explicit
  character scanners; `\w`, `\s`, case folding and `str.strip` are modelled
  over the ASCII range (all SQL keywords and policy tokens are ASCII).
  Module-level configuration read by the Python code (`ALLOWED_TABLES`,
  `SERVICE_SCOPED_TABLES`, `settings.default_limit`, `settings.max_limit`)
  is made an explicit `Globals` record, since the code reads it from module
  scope on every call.

* `src/agents/evidence.py` — the evidence builder (`build_evidence`,
  `Evidence.to_prompt` and all analysis helpers).  Python floats are
  modelled as exact rationals (`ℚ`); every numeric computation exercised by
  the claims is exact in binary floating point, so the models agree there.
  Python exceptions that can escape `build_evidence` are modelled with
  `Except PyErr`.

Strings are modelled as `List Char` (`Str`), which makes the character-level
scanning of the Python regexes directly expressible and provable.
-/

set_option maxRecDepth 10000

abbrev Str := List Char

/-- Convert a Lean string literal to the `List Char` representation. -/
def str (s : String) : Str := s.toList

/-- Python `\w` (word character), ASCII range: letters, digits, underscore. -/
def isWordChar (c : Char) : Bool := c.isAlphanum || c == '_'

/-- Python `\s` / `str.strip()` whitespace, ASCII range:
space, tab, newline, carriage return, vertical tab, form feed. -/
def isSpacePy (c : Char) : Bool :=
  c == ' ' || c == '\t' || c == '\n' || c == '\r' || c == '\x0b' || c == '\x0c'

/-- ASCII lower-casing of a character sequence (model of `str.lower()`). -/
def lowerS (s : Str) : Str := s.map Char.toLower

/-- Case-insensitive character comparison (ASCII case folding). -/
def ciEqCh (a b : Char) : Bool := a.toLower == b.toLower

/-- Case-insensitive literal prefix test: does `s` start with pattern `p`? -/
def startsCI : Str → Str → Bool
  | [], _ => true
  | _ :: _, [] => false
  | p :: ps, c :: cs => ciEqCh p c && startsCI ps cs

/-- Model of Python `str.strip()` (no argument): remove leading and trailing
whitespace. -/
def stripPy (s : Str) : Str :=
  ((s.dropWhile isSpacePy).reverse.dropWhile isSpacePy).reverse

/-- Model of Python `str.rstrip(";")`: remove all trailing semicolons. -/
def rstripSemi (s : Str) : Str :=
  (s.reverse.dropWhile (fun c => c == ';')).reverse

/-- True when the first character (if any) is not a word character; used for
the `\b` word-boundary test on the right edge of a match. -/
def headNotWord : Str → Bool
  | [] => true
  | c :: _ => !(isWordChar c)

/-- Whole-word, case-insensitive match of keyword `kw` at the head of `s`
(the left boundary is checked by the caller, the right boundary here). -/
def wordHereCI (kw : Str) (s : Str) : Bool :=
  startsCI kw s && headNotWord (s.drop kw.length)

/- ==========================================================================
query_checker.py — regular-expression models
========================================================================== -/

/-- The ten forbidden DML/DDL keywords of `DENY_RE`
(`\b(INSERT|UPDATE|DELETE|ALTER|DROP|CREATE|REPLACE|TRUNCATE|GRANT|REVOKE)\b`,
case-insensitive). -/
def denyKeywords : List Str :=
  [str "INSERT", str "UPDATE", str "DELETE", str "ALTER", str "DROP",
   str "CREATE", str "REPLACE", str "TRUNCATE", str "GRANT", str "REVOKE"]

/-- Scanner for `DENY_RE.search`: the Boolean argument records whether the
previous character was a word character (for the left `\b` boundary). -/
def denyScan : Bool → Str → Bool
  | _, [] => false
  | prevW, c :: cs =>
    (!prevW && denyKeywords.any (fun kw => wordHereCI kw (c :: cs)))
      || denyScan (isWordChar c) cs

/-- Model of `DENY_RE.search(q) is not None`. -/
def denySearch (s : Str) : Bool := denyScan false s

/-- Model of `DANGEROUS_RE.search` for `(--|#|/\*|\*/|;\s*\w)`:
inline comment markers, or a semicolon followed (after whitespace) by more
text. -/
def dangerousScan : Str → Bool
  | [] => false
  | '-' :: '-' :: _ => true
  | '#' :: _ => true
  | '/' :: '*' :: _ => true
  | '*' :: '/' :: _ => true
  | ';' :: cs =>
    (match cs.dropWhile isSpacePy with
     | [] => false
     | c :: _ => isWordChar c) || dangerousScan cs
  | _ :: cs => dangerousScan cs

/-- Match of `WITH\s+\w+\s+AS\b` at the head of `s` (left boundary checked by
the caller).  The character classes `\s` and `\w` are disjoint, so greedy
matching is deterministic. -/
def withAsHere (s : Str) : Bool :=
  startsCI (str "WITH") s &&
  (let r1 := s.drop 4
   !(r1.takeWhile isSpacePy).isEmpty &&
   (let r2 := r1.dropWhile isSpacePy
    !(r2.takeWhile isWordChar).isEmpty &&
    (let r3 := r2.dropWhile isWordChar
     !(r3.takeWhile isSpacePy).isEmpty &&
     wordHereCI (str "AS") (r3.dropWhile isSpacePy))))

/-- Scanner for `NON_PLAIN_SQL_RE.search`
(`\b(WITH\s+\w+\s+AS|UNION|INTERSECT|EXCEPT)\b`, case-insensitive). -/
def nonPlainScan : Bool → Str → Bool
  | _, [] => false
  | prevW, c :: cs =>
    (!prevW &&
      (wordHereCI (str "UNION") (c :: cs) ||
       wordHereCI (str "INTERSECT") (c :: cs) ||
       wordHereCI (str "EXCEPT") (c :: cs) ||
       withAsHere (c :: cs)))
      || nonPlainScan (isWordChar c) cs

/-- Model of `NON_PLAIN_SQL_RE.search(q) is not None`. -/
def nonPlainSearch (s : Str) : Bool := nonPlainScan false s

/-- Scanner for `SUBQUERY_RE.search` (`\(\s*SELECT\b`, case-insensitive). -/
def subqueryScan : Str → Bool
  | [] => false
  | '(' :: cs =>
    wordHereCI (str "SELECT") (cs.dropWhile isSpacePy) || subqueryScan cs
  | _ :: cs => subqueryScan cs

/-- Opening quote characters accepted before a table identifier. -/
def quoteOpenCh (c : Char) : Bool := c == '`' || c == '"' || c == '['

/-- Closing quote characters accepted after a table identifier. -/
def quoteCloseCh (c : Char) : Bool := c == '`' || c == '"' || c == ']'

/-- Model of the optional alias group `(?:\s+(?:AS\s+)?(\w+))?` of
`FROM_RE`/`JOIN_RE`: given the text after the table token, return the text
after the (possibly absent) alias part, reproducing the regex backtracking
(`AS` consumed only when followed by whitespace and a word character;
otherwise `AS...` itself can be the alias word). -/
def aliasEnd (r3 : Str) : Str :=
  if (r3.takeWhile isSpacePy).isEmpty then r3
  else
    let r4 := r3.dropWhile isSpacePy
    if startsCI (str "AS") r4 then
      let r5 := r4.drop 2
      if !(r5.takeWhile isSpacePy).isEmpty &&
         !(headNotWord (r5.dropWhile isSpacePy)) then
        (r5.dropWhile isSpacePy).dropWhile isWordChar
      else r4.dropWhile isWordChar
    else
      match r4 with
      | [] => r3
      | c :: _ => if isWordChar c then r4.dropWhile isWordChar else r3

/-- Model of the table-token group `([`"\[]?\w+[`"\]]?)` of
`FROM_RE`/`JOIN_RE`, applied to the text after the keyword: consume `\s+`,
then the optionally quoted identifier, then the alias group.  Returns the
raw captured token and the remainder after the whole match, or `none` when
the pattern does not match here. -/
def matchTableAfterKw (s : Str) : Option (Str × Str) :=
  if (s.takeWhile isSpacePy).isEmpty then none
  else
    let r1 := s.dropWhile isSpacePy
    match r1 with
    | [] => none
    | c :: rest =>
      if quoteOpenCh c then
        let wrd := rest.takeWhile isWordChar
        if wrd.isEmpty then none
        else
          match rest.dropWhile isWordChar with
          | [] => some (c :: wrd, aliasEnd [])
          | d :: r3 =>
            if quoteCloseCh d then some (c :: wrd ++ [d], aliasEnd r3)
            else some (c :: wrd, aliasEnd (d :: r3))
      else
        let wrd := r1.takeWhile isWordChar
        if wrd.isEmpty then none
        else
          match r1.dropWhile isWordChar with
          | [] => some (wrd, aliasEnd [])
          | d :: r3 =>
            if quoteCloseCh d then some (wrd ++ [d], aliasEnd r3)
            else some (wrd, aliasEnd (d :: r3))

/-- Model of `_normalize_identifier`: strip one leading opening-quote
character and one trailing closing-quote character, then lower-case. -/
def normalize_identifier (s : Str) : Str :=
  let s1 := match s with
    | [] => []
    | c :: t => if quoteOpenCh c then t else s
  let s2 := match s1.reverse with
    | [] => []
    | c :: t => if quoteCloseCh c then t.reverse else s1
  lowerS s2

/-- Is the character immediately preceding `rest` inside `full` a word
character?  (Used for the `\b` state after a `finditer` jump.) -/
def prevWordOf (full rest : Str) : Bool :=
  match (full.take (full.length - rest.length)).getLast? with
  | some c => isWordChar c
  | none => false

/-- Scanner for `FROM_RE.finditer` / `JOIN_RE.finditer`: at every position
with a left word boundary where the keyword matches and the table pattern
follows, record the normalized table token and resume after the match
(non-overlapping matches); otherwise advance one character.  `fuel` bounds
the number of steps; every step consumes at least one character, so fuel
`s.length + 1` is never exhausted. -/
def scanTablesFuel (kw : Str) : Nat → Bool → Str → List Str
  | 0, _, _ => []
  | _ + 1, _, [] => []
  | fuel + 1, prevW, c :: cs =>
    if !prevW && startsCI kw (c :: cs) then
      match matchTableAfterKw ((c :: cs).drop kw.length) with
      | some (tok, rest) =>
        normalize_identifier tok ::
          scanTablesFuel kw fuel (prevWordOf (c :: cs) rest) rest
      | none => scanTablesFuel kw fuel (isWordChar c) cs
    else scanTablesFuel kw fuel (isWordChar c) cs

/-- Add to a duplicate-free list, preserving first-occurrence order
(model of Python `set.add` for the operations used here: membership,
emptiness, filtering). -/
def setAddUnique (l : List Str) (x : Str) : List Str :=
  if l.contains x then l else l ++ [x]

/-- Model of `_extract_tables` restricted to the table set (the alias map it
also returns is never used by `check_query`):  run the `FROM` pass and the
`JOIN` pass over the whole query and collect the normalized names. -/
def extract_tables (q : Str) : List Str :=
  ((scanTablesFuel (str "FROM") (q.length + 1) false q) ++
   (scanTablesFuel (str "JOIN") (q.length + 1) false q)).foldl setAddUnique []

/- ==========================================================================
query_checker.py — LIMIT clause parsing (HAS_LIMIT_RE)
========================================================================== -/

/-- Decimal digits of a natural number (model of Python `str(int)` for
non-negative values).  `fuel`-structured so it reduces definitionally;
fuel `n + 1` always suffices. -/
def natDigitsAux : Nat → Nat → Str
  | 0, _ => []
  | fuel + 1, n =>
    if n < 10 then [Nat.digitChar n]
    else natDigitsAux fuel (n / 10) ++ [Nat.digitChar (n % 10)]

def natDigits (n : Nat) : Str := natDigitsAux (n + 1) n

/-- Numeric value of a most-significant-first digit string
(model of Python `int(...)` on a `\d+` capture). -/
def digitsVal (l : Str) : Nat := l.foldl (fun a c => a * 10 + (c.toNat - 48)) 0

/-- `LIMIT` reversed (`\bLIMIT` read right to left). -/
def revLimitKw : Str := ['T', 'I', 'M', 'I', 'L']

/-- Drop one leading semicolon if present (the `;?` of `HAS_LIMIT_RE`,
read right to left). -/
def dropOneSemi (s : Str) : Str := if s.head? == some ';' then s.tail else s

/-- After the digits of the trailing LIMIT clause (reading the reversed
query), check `\bLIMIT\s+` going leftwards: at least one whitespace
character, the literal `LIMIT` (case-insensitive, reversed: `TIMIL`), then a
left word boundary.  Returns the reversed text before the match. -/
def checkLimitKwRev (r : Str) : Option Str :=
  if (r.takeWhile isSpacePy).isEmpty then none
  else
    match r.dropWhile isSpacePy with
    | t :: i :: m :: i2 :: l :: rest =>
      if ciEqCh t 'T' && ciEqCh i 'I' && ciEqCh m 'M' && ciEqCh i2 'I' &&
         ciEqCh l 'L' && headNotWord rest
      then some rest else none
    | _ => none

/-- Parser for `HAS_LIMIT_RE` = `\bLIMIT\s+(\d+)(?:\s*,\s*\d+)?\s*;?\s*$`,
reading the reversed query.  Because the pattern is anchored at the end of
the string and its character classes are disjoint at every junction, the
match (if any) is unique, and this right-to-left parse finds exactly the
match `re.search` finds.  Returns the captured group-1 value and the
reversed text preceding the match. -/
def parseLimitRev (r0 : Str) : Option (Nat × Str) :=
  let r3 := (dropOneSemi (r0.dropWhile isSpacePy)).dropWhile isSpacePy
  let ds := r3.takeWhile Char.isDigit
  if ds.isEmpty then none
  else
    let r4 := r3.dropWhile Char.isDigit
    let r5 := r4.dropWhile isSpacePy
    if r5.head? == some ',' then
      let r6 := r5.tail.dropWhile isSpacePy
      let ds2 := r6.takeWhile Char.isDigit
      if ds2.isEmpty then none
      else
        match checkLimitKwRev (r6.dropWhile Char.isDigit) with
        | some rp => some (digitsVal ds2.reverse, rp)
        | none => none
    else
      match checkLimitKwRev r4 with
      | some rp => some (digitsVal ds.reverse, rp)
      | none => none

/-- Model of `_extract_limit`: group 1 of the trailing LIMIT clause. -/
def extract_limit (q : Str) : Option Nat := (parseLimitRev q.reverse).map Prod.fst

/-- Model of `HAS_LIMIT_RE.sub(f"LIMIT {m}", q)`: replace the (unique,
end-anchored) match by `LIMIT m`.  When there is no match the text is
returned unchanged. -/
def subLimitClause (q : Str) (m : Nat) : Str :=
  match parseLimitRev q.reverse with
  | some (_, rp) => rp.reverse ++ ['L', 'I', 'M', 'I', 'T', ' '] ++ natDigits m
  | none => q

/- ==========================================================================
query_checker.py — service-id scope regexes
========================================================================== -/

/-- Core of the three `SERVICE_ID` regexes after the optional `(?:\w+\.)?`
prefix: `service_id` followed by `tail` matching at the head of `s`, where
`tail` checks everything after the identifier. -/
def serviceIdCoreHere (tail : Str → Bool) (s : Str) : Bool :=
  startsCI (str "service_id") s && tail (s.drop 10)

/-- `\s*=\s*:service_id\b` (tail of `SERVICE_ID_PLACEHOLDER_RE`). -/
def placeholderTail (s : Str) : Bool :=
  match s.dropWhile isSpacePy with
  | '=' :: r =>
    let r2 := r.dropWhile isSpacePy
    match r2 with
    | ':' :: r3 => wordHereCI (str "service_id") r3
    | _ => false
  | _ => false

/-- `\s*=\s*\d+\b` (tail of `SERVICE_ID_NUMERIC_RE`). -/
def numericTail (s : Str) : Bool :=
  match s.dropWhile isSpacePy with
  | '=' :: r =>
    let r2 := r.dropWhile isSpacePy
    !(r2.takeWhile Char.isDigit).isEmpty &&
      headNotWord (r2.dropWhile Char.isDigit)
  | _ => false

/-- `\s+IN\s*\(` (tail of `SERVICE_ID_IN_RE`). -/
def inTail (s : Str) : Bool :=
  !(s.takeWhile isSpacePy).isEmpty &&
  (let r := s.dropWhile isSpacePy
   startsCI (str "IN") r &&
   (match (r.drop 2).dropWhile isSpacePy with
    | '(' :: _ => true
    | _ => false))

/-- Scanner for `\b(?:\w+\.)?service_id<tail>`.  A match of the full pattern
exists iff `service_id<tail>` occurs with a non-word character (or the start
of the string) directly before it: when the optional `\w+\.` prefix is
present the preceding character of the core is `.`, which is itself a
non-word character, so the prefix alternative never enables an occurrence
the plain `\b service_id` alternative would miss. -/
def serviceIdScan (tail : Str → Bool) : Bool → Str → Bool
  | _, [] => false
  | prevW, c :: cs =>
    (!prevW && serviceIdCoreHere tail (c :: cs))
      || serviceIdScan tail (isWordChar c) cs

/-- Model of `SERVICE_ID_PLACEHOLDER_RE.search(q) is not None`. -/
def serviceIdPlaceholderSearch (s : Str) : Bool := serviceIdScan placeholderTail false s

/-- Model of `SERVICE_ID_NUMERIC_RE.search(q) is not None`. -/
def serviceIdNumericSearch (s : Str) : Bool := serviceIdScan numericTail false s

/-- Model of `SERVICE_ID_IN_RE.search(q) is not None`. -/
def serviceIdInSearch (s : Str) : Bool := serviceIdScan inTail false s

/- ==========================================================================
query_checker.py — check_query
========================================================================== -/

/-- Module-level configuration read by `check_query` at call time:
`ALLOWED_TABLES`, `SERVICE_SCOPED_TABLES` (module globals of
`query_checker.py`) and `settings.default_limit` / `settings.max_limit`
(fields of the process-wide `settings` object). -/
structure Globals where
  allowed_tables : List Str
  service_scoped_tables : List Str
  default_limit : Nat
  max_limit : Nat

/-- The rejection kinds of `check_query`, one per `return` site with
`is_valid=False`.  The spec's taxonomy maps `emptyQuery`, `multiStatement`
and `notSelectStatement` to `Syntax`; `dmlDdlForbidden`,
`dangerousConstruct`, `nonPlainConstruct` and `subqueryForbidden` to
`Policy`; `tableUnknown` and `tableNotAllowed` to `TableNotAllowed`; and the
two scope rejections to `ScopeRequired`. -/
inductive RejectKind where
  | emptyQuery
  | multiStatement
  | notSelectStatement
  | dmlDdlForbidden
  | dangerousConstruct
  | nonPlainConstruct
  | subqueryForbidden
  | tableUnknown
  | tableNotAllowed
  | scopeLiteralForbidden
  | scopeMissing
deriving DecidableEq

/-- Result of `check_query` (`QueryCheckResult` in the Python source):
either the possibly rewritten query, or a rejection kind. -/
inductive QueryCheckResult where
  | valid (query : Str)
  | invalid (err : RejectKind)
deriving DecidableEq

/-- Steps 1–9 of `check_query` (everything before the LIMIT rewriting),
returning the normalized query on success. -/
def pre_checks (G : Globals) (query0 : Str) (service_id : Option Int)
    (allow_subqueries : Bool) : Except RejectKind Str :=
  let q1 := stripPy query0
  if q1.isEmpty then .error .emptyQuery
  else if 1 < q1.count ';' then .error .multiStatement
  else if q1.count ';' == 1 && !(q1.getLast? == some ';') then .error .multiStatement
  else
    let q := stripPy (rstripSemi q1)
    if !startsCI (str "SELECT") q then .error .notSelectStatement
    else if denySearch q then .error .dmlDdlForbidden
    else if dangerousScan q then .error .dangerousConstruct
    else if nonPlainSearch q then .error .nonPlainConstruct
    else if !allow_subqueries && subqueryScan q then .error .subqueryForbidden
    else
      let tables := extract_tables q
      if tables.isEmpty then .error .tableUnknown
      else if !(tables.filter (fun t => !G.allowed_tables.contains t)).isEmpty then
        .error .tableNotAllowed
      else if !G.service_scoped_tables.isEmpty && service_id.isSome then
        let scopedTables := tables.filter (fun t => G.service_scoped_tables.contains t)
        if !scopedTables.isEmpty then
          if serviceIdNumericSearch q || serviceIdInSearch q then
            .error .scopeLiteralForbidden
          else if !serviceIdPlaceholderSearch q then .error .scopeMissing
          else .ok q
        else .ok q
      else .ok q

/-- Step 10 of `check_query`: append the default LIMIT when absent, clamp to
the maximum when exceeded. -/
def apply_limit (G : Globals) (max_limit_arg : Option Nat) (q : Str) : Str :=
  let m := max_limit_arg.getD G.max_limit
  match extract_limit q with
  | none => q ++ [' ', 'L', 'I', 'M', 'I', 'T', ' '] ++ natDigits G.default_limit
  | some n => if m < n then subLimitClause q m else q

/-- Model of `check_query(query, service_id, allow_subqueries, max_limit)`.
`G` carries the module-level configuration the Python function reads
(`ALLOWED_TABLES`, `SERVICE_SCOPED_TABLES`, `settings.default_limit`,
`settings.max_limit`); a `max_limit` argument of `none` models Python's
`None` (fall back to `settings.max_limit`). -/
def check_query (G : Globals) (query : Str) (service_id : Option Int)
    (allow_subqueries : Bool) (max_limit_arg : Option Nat) : QueryCheckResult :=
  match pre_checks G query service_id allow_subqueries with
  | .error e => .invalid e
  | .ok q => .valid (apply_limit G max_limit_arg q)

/-- The module-level configuration as defined in the repository:
`ALLOWED_TABLES` (11 tables), `SERVICE_SCOPED_TABLES = set()`,
`settings.default_limit = 100`, `settings.max_limit = 1000`. -/
def defaultGlobals : Globals :=
  { allowed_tables :=
      [str "services", str "ad_accounts", str "campaigns", str "ad_groups",
       str "keywords", str "ads", str "targeting_settings", str "search_queries",
       str "search_query_keyword_ad_daily_stats", str "display_ad_daily_stats",
       str "campaign_daily_stats"]
    service_scoped_tables := []
    default_limit := 100
    max_limit := 1000 }

/- ==========================================================================
evidence.py — JSON values and Python-style coercions
========================================================================== -/

/-- JSON values as produced by `json.loads` (Python floats modelled as exact
rationals; the non-standard `NaN`/`Infinity` literals accepted by Python's
`json` module are outside the model). -/
inductive JVal where
  | jnull
  | jbool (b : Bool)
  | jnum (q : ℚ)
  | jstr (s : Str)
  | jarr (elems : List JVal)
  | jobj (fields : List (Str × JVal))

/-- A decoded row: an insertion-ordered mapping from column name to value
(model of a Python `dict`). -/
abbrev Row := List (Str × JVal)

/-- Python `dict` assignment `d[k] = v`: overwrite in place when the key
exists (keeping its position), otherwise append. -/
def dictInsert {α : Type} (k : Str) (v : α) : List (Str × α) → List (Str × α)
  | [] => [(k, v)]
  | (k', v') :: t => if k' == k then (k', v) :: t else (k', v') :: dictInsert k v t

/-- Python `row.get(k)` (default `None`). -/
def rowGet (r : Row) (k : Str) : Option JVal := List.lookup k r

/-- Model of Python `float(str)` restricted to finite decimal literals with
optional sign, fraction and exponent.  `inf`/`nan` spellings and digit
underscores, which Python also accepts, are outside the model (they do not
occur in the inputs the claims are about). -/
def pyFloatOfStr (s0 : Str) : Option ℚ :=
  let t := stripPy s0
  let (neg, t) := match t with
    | '-' :: r => (true, r)
    | '+' :: r => (false, r)
    | _ => (false, t)
  let ipart := t.takeWhile Char.isDigit
  let t1 := t.dropWhile Char.isDigit
  let (fpart, t2) := match t1 with
    | '.' :: r => (r.takeWhile Char.isDigit, r.dropWhile Char.isDigit)
    | _ => ([], t1)
  if ipart.isEmpty && fpart.isEmpty then none
  else
    let base : ℚ := (digitsVal ipart : ℚ) + (digitsVal fpart : ℚ) / (10 : ℚ) ^ fpart.length
    let base := if neg then -base else base
    match t2 with
    | [] => some base
    | 'e' :: r => pyFloatExp base r
    | 'E' :: r => pyFloatExp base r
    | _ => none
where
  /-- Exponent part `[+-]?\d+` followed by end of string. -/
  pyFloatExp (base : ℚ) (r : Str) : Option ℚ :=
    let (eneg, r) := match r with
      | '-' :: r2 => (true, r2)
      | '+' :: r2 => (false, r2)
      | _ => (false, r)
    let ds := r.takeWhile Char.isDigit
    if ds.isEmpty || !(r.dropWhile Char.isDigit).isEmpty then none
    else some (if eneg then base / (10 : ℚ) ^ digitsVal ds else base * (10 : ℚ) ^ digitsVal ds)

/-- Model of `_safe_float` applied to `row.get(col)`:  `None` and
uncoercible values give `None`; Python `float(bool)` gives 0/1; numeric
strings are parsed; lists/dicts raise `TypeError`, which `_safe_float`
swallows into `None`. -/
def pySafeFloat : Option JVal → Option ℚ
  | none => none
  | some .jnull => none
  | some (.jbool b) => some (if b then 1 else 0)
  | some (.jnum q) => some q
  | some (.jstr s) => pyFloatOfStr s
  | some (.jarr _) => none
  | some (.jobj _) => none

/-- Model of `_is_date_like` on a string: `\d{4}-\d{2}-\d{2}` fullmatch of
the stripped value. -/
def isDateStr (s : Str) : Bool :=
  match stripPy s with
  | [a, b, c, d, h1, e, f, h2, g, h] =>
    a.isDigit && b.isDigit && c.isDigit && d.isDigit && h1 == '-' &&
    e.isDigit && f.isDigit && h2 == '-' && g.isDigit && h.isDigit
  | _ => false

/-- Model of `_is_date_like`: only strings can be date-like. -/
def isDateLikeJ : JVal → Bool
  | .jstr s => isDateStr s
  | _ => false

/- ==========================================================================
evidence.py — JSON parsing (_parse_sql_result)
========================================================================== -/

/-- JSON whitespace. -/
def skipJWs (s : Str) : Str :=
  s.dropWhile (fun c => c == ' ' || c == '\t' || c == '\n' || c == '\r')

def hexValOf (c : Char) : Option Nat :=
  if c.isDigit then some (c.toNat - 48)
  else if 'a' ≤ c && c ≤ 'f' then some (c.toNat - 87)
  else if 'A' ≤ c && c ≤ 'F' then some (c.toNat - 55)
  else none

/-- The characters `{` and `}` (kept out of string literals). -/
def lbrace : Char := Char.ofNat 123
def rbrace : Char := Char.ofNat 125

/-- JSON string body parser (after the opening quote); supports the standard
escapes.  A `\uXXXX` escape becomes the character with that code point
(surrogate-pair recombination is outside the model). -/
def parseJStrAux : Nat → Str → Option (Str × Str)
  | 0, _ => none
  | _ + 1, [] => none
  | fuel + 1, c :: cs =>
    if c == '"' then some ([], cs)
    else if c == '\\' then
      match cs with
      | [] => none
      | e :: cs2 =>
        if e == '"' then (parseJStrAux fuel cs2).map (fun p => ('"' :: p.1, p.2))
        else if e == '\\' then (parseJStrAux fuel cs2).map (fun p => ('\\' :: p.1, p.2))
        else if e == '/' then (parseJStrAux fuel cs2).map (fun p => ('/' :: p.1, p.2))
        else if e == 'b' then (parseJStrAux fuel cs2).map (fun p => ('\x08' :: p.1, p.2))
        else if e == 'f' then (parseJStrAux fuel cs2).map (fun p => ('\x0c' :: p.1, p.2))
        else if e == 'n' then (parseJStrAux fuel cs2).map (fun p => ('\n' :: p.1, p.2))
        else if e == 'r' then (parseJStrAux fuel cs2).map (fun p => ('\r' :: p.1, p.2))
        else if e == 't' then (parseJStrAux fuel cs2).map (fun p => ('\t' :: p.1, p.2))
        else if e == 'u' then
          match cs2 with
          | a :: b :: c2 :: d :: cs3 =>
            match hexValOf a, hexValOf b, hexValOf c2, hexValOf d with
            | some x, some y, some z, some w =>
              (parseJStrAux fuel cs3).map
                (fun p => (Char.ofNat (((x * 16 + y) * 16 + z) * 16 + w) :: p.1, p.2))
            | _, _, _, _ => none
          | _ => none
        else none
    else if c.toNat < 32 then none
    else (parseJStrAux fuel cs).map (fun p => (c :: p.1, p.2))

/-- Strict JSON number parser: `-? (0 | [1-9]\d*) (\.\d+)? ([eE][+-]?\d+)?`.
Returns the value and the remainder. -/
def parseJNum (s : Str) : Option (ℚ × Str) :=
  let (neg, t) := match s with
    | '-' :: r => (true, r)
    | _ => (false, s)
  let ipart := t.takeWhile Char.isDigit
  let t1 := t.dropWhile Char.isDigit
  if ipart.isEmpty then none
  else if 1 < ipart.length && ipart.head? == some '0' then none
  else
    let (fpart, t2) := match t1 with
      | '.' :: r =>
        let f := r.takeWhile Char.isDigit
        (f, if f.isEmpty then '.' :: r else r.dropWhile Char.isDigit)
      | _ => ([], t1)
    if t1.head? == some '.' && fpart.isEmpty then none
    else
      let base : ℚ := (digitsVal ipart : ℚ) + (digitsVal fpart : ℚ) / (10 : ℚ) ^ fpart.length
      let base := if neg then -base else base
      match t2 with
      | 'e' :: r => parseJNumExp base r
      | 'E' :: r => parseJNumExp base r
      | _ => some (base, t2)
where
  parseJNumExp (base : ℚ) (r : Str) : Option (ℚ × Str) :=
    let (eneg, r2) := match r with
      | '-' :: r3 => (true, r3)
      | '+' :: r3 => (false, r3)
      | _ => (false, r)
    let ds := r2.takeWhile Char.isDigit
    if ds.isEmpty then none
    else some
      ((if eneg then base / (10 : ℚ) ^ digitsVal ds else base * (10 : ℚ) ^ digitsVal ds),
       r2.dropWhile Char.isDigit)

/-- Array-element loop of the JSON parser (after `[`); `parse1` parses one
value at the next nesting depth. -/
def parseJArrAux (parse1 : Str → Option (JVal × Str)) : Nat → Str → Option (List JVal × Str)
  | 0, _ => none
  | efuel + 1, s =>
    let s1 := skipJWs s
    if s1.head? == some ']' then some ([], s1.tail)
    else
      match parse1 s1 with
      | none => none
      | some (v, rest) =>
        let r1 := skipJWs rest
        if r1.head? == some ',' then
          match parseJArrAux parse1 efuel r1.tail with
          | some (vs, r2) => some (v :: vs, r2)
          | none => none
        else if r1.head? == some ']' then some ([v], r1.tail)
        else none

/-- Object-field loop of the JSON parser (after the opening brace); duplicate
keys behave like repeated `dict` assignment (first position, last value). -/
def parseJObjAux (parse1 : Str → Option (JVal × Str)) : Nat → Str → Option (Row × Str)
  | 0, _ => none
  | efuel + 1, s =>
    let s1 := skipJWs s
    if s1.head? == some rbrace then some ([], s1.tail)
    else if s1.head? == some '"' then
      match parseJStrAux (s1.length + 1) s1.tail with
      | none => none
      | some (k, rest) =>
        let r1 := skipJWs rest
        if r1.head? == some ':' then
          match parse1 r1.tail with
          | none => none
          | some (v, rest2) =>
            let r2 := skipJWs rest2
            if r2.head? == some ',' then
              match parseJObjAux parse1 efuel r2.tail with
              | some (fs, r3) => some (dictInsert k v fs, r3)
              | none => none
            else if r2.head? == some rbrace then some ([(k, v)], r2.tail)
            else none
        else none
    else none

/-- One JSON value; `fuel` bounds the nesting depth (input length + 1 always
suffices). -/
def parseJVal : Nat → Str → Option (JVal × Str)
  | 0, _ => none
  | fuel + 1, s0 =>
    let s := skipJWs s0
    match s with
    | [] => none
    | c :: cs =>
      if c == '"' then
        match parseJStrAux (cs.length + 1) cs with
        | some (content, rest) => some (.jstr content, rest)
        | none => none
      else if c == '[' then
        match parseJArrAux (parseJVal fuel) (cs.length + 1) cs with
        | some (vs, rest) => some (.jarr vs, rest)
        | none => none
      else if c == lbrace then
        match parseJObjAux (parseJVal fuel) (cs.length + 1) cs with
        | some (fs, rest) => some (.jobj fs, rest)
        | none => none
      else if (str "null").isPrefixOf s then some (.jnull, s.drop 4)
      else if (str "true").isPrefixOf s then some (.jbool true, s.drop 4)
      else if (str "false").isPrefixOf s then some (.jbool false, s.drop 5)
      else
        match parseJNum s with
        | some (q, rest) => some (.jnum q, rest)
        | none => none

/-- Model of `json.loads` on the sliced text: the whole input must be one
JSON value up to trailing whitespace. -/
def jsonLoads (s : Str) : Option JVal :=
  match parseJVal (s.length + 1) s with
  | some (v, rest) => if (skipJWs rest).isEmpty then some v else none
  | none => none

/-- Model of `re.search(r"\[.*\]", s, re.DOTALL)`: the slice from the first
`[` to the last `]` after it, if both exist. -/
def bracketSlice (s : Str) : Option Str :=
  match s.dropWhile (fun c => !(c == '[')) with
  | [] => none
  | _ :: rest =>
    match rest.reverse.dropWhile (fun c => !(c == ']')) with
    | [] => none
    | r2 => some ('[' :: r2.reverse)

/-- Model of `_parse_sql_result`: extract the bracketed slice, JSON-decode
it, and keep the result only when it is a list; every failure yields the
empty row list. -/
def parse_sql_result (s : Str) : List JVal :=
  match bracketSlice s with
  | none => []
  | some sub =>
    match jsonLoads sub with
    | some (.jarr l) => l
    | some _ => []
    | none => []

/- ==========================================================================
evidence.py — derived metrics (_add_derived_metrics)
========================================================================== -/

/-- Python exceptions that can escape `build_evidence`. -/
inductive PyErr where
  | typeErr
  | valueErr
deriving DecidableEq

/-- One element of `dict(list)` coercion: a two-element `[key, value]` array
with a string key, or a two-character string. -/
def pairOfJVal : JVal → Option (Str × JVal)
  | .jarr [.jstr k, v] => some (k, v)
  | .jstr [a, b] => some ([a], .jstr [b])
  | _ => none

/-- Model of Python `dict(row)` as applied by `_add_derived_metrics` to each
decoded element.  Mappings pass through; the empty list/string and pair
lists succeed; numbers, booleans and `None` raise `TypeError`; other
sequences raise `ValueError`.  (Exotic successful cases with non-string
keys — e.g. `dict([[1, 2]])` — cannot be represented in `Row` and are
modelled as errors; no claim involves them.) -/
def dictOfJVal : JVal → Except PyErr Row
  | .jobj kvs => .ok kvs
  | .jarr l =>
    match l.mapM pairOfJVal with
    | some ps => .ok (ps.foldl (fun acc p => dictInsert p.1 p.2 acc) [])
    | none => .error .valueErr
  | .jstr [] => .ok []
  | .jstr (_ :: _) => .error .valueErr
  | .jnull => .error .typeErr
  | .jbool _ => .error .typeErr
  | .jnum _ => .error .typeErr

/-- The per-row body of `_add_derived_metrics`: read the base counters, then
add each of CTR/CPC/CVR/CPA/ROAS when its Python guard
(`denominator and denominator > 0 and numerator is not None`) holds. -/
def addDerivedRow (r : Row) : Row :=
  let imp := pySafeFloat (rowGet r (str "impressions"))
  let clk := pySafeFloat (rowGet r (str "clicks"))
  let cost := pySafeFloat (rowGet r (str "cost"))
  let conv := pySafeFloat (rowGet r (str "conversions"))
  let convv := pySafeFloat (rowGet r (str "conversion_value"))
  let r1 := match imp, clk with
    | some i, some c => if 0 < i then dictInsert (str "ctr") (.jnum (c / i)) r else r
    | _, _ => r
  let r2 := match clk, cost with
    | some c, some co => if 0 < c then dictInsert (str "cpc") (.jnum (co / c)) r1 else r1
    | _, _ => r1
  let r3 := match clk, conv with
    | some c, some cv => if 0 < c then dictInsert (str "cvr") (.jnum (cv / c)) r2 else r2
    | _, _ => r2
  let r4 := match conv, cost with
    | some cv, some co => if 0 < cv then dictInsert (str "cpa") (.jnum (co / cv)) r3 else r3
    | _, _ => r3
  match cost, convv with
  | some co, some cvv => if 0 < co then dictInsert (str "roas") (.jnum (cvv / co)) r4 else r4
  | _, _ => r4

/-- Model of `_add_derived_metrics`: coerce each decoded element with
`dict(...)` (raising on non-row elements) and add the derived fields. -/
def add_derived_metrics (rows : List JVal) : Except PyErr (List Row) :=
  rows.mapM (fun v => (dictOfJVal v).map addDerivedRow)

/- ==========================================================================
evidence.py — column role classification
========================================================================== -/

/-- `DIMENSION_PRIORITY` from the source, in order. -/
def DIMENSION_PRIORITY : List Str :=
  [str "campaign_name", str "ad_group_name", str "keyword_text", str "query_text",
   str "service_name", str "campaign_type", str "match_type", str "status",
   str "targeting_type", str "targeting_value", str "date", str "name"]

/-- The classification loop of `_detect_dimension_and_metrics`: returns the
numeric columns and the non-numeric (dimension-candidate) columns, in
declaration order. -/
def classifyCols : Row → List Str × List Str
  | [] => ([], [])
  | (col, val) :: rest =>
    let (ms, ns) := classifyCols rest
    let cl := lowerS col
    if cl == str "id" || (str "_id").isSuffixOf cl || (str "google_").isPrefixOf cl then
      (ms, ns)
    else if cl == str "date" || isDateLikeJ val then (ms, col :: ns)
    else if (pySafeFloat (some val)).isSome then (col :: ms, ns)
    else (ms, col :: ns)

/-- Contiguous-substring test (Python `p in c` for strings). -/
def isSubstr (p : Str) : Str → Bool
  | [] => p.isEmpty
  | c :: t => p.isPrefixOf (c :: t) || isSubstr p t

/-- The metric importance list of `_detect_dimension_and_metrics`. -/
def metricPriorityList : List Str :=
  [str "cpa", str "roas", str "cpc", str "cvr", str "ctr", str "cost",
   str "conversions", str "clicks", str "impressions", str "conversion_value"]

def metricPriorityAux : List Str → Nat → Str → Nat
  | [], _, _ => 100
  | p :: ps, i, cl => if cl == p || isSubstr p cl then i else metricPriorityAux ps (i + 1) cl

/-- `metric_priority`: index of the first importance entry that equals or is
contained in the lower-cased column name, else 100. -/
def metricPriority (c : Str) : Nat := metricPriorityAux metricPriorityList 0 (lowerS c)

/-- Model of `_detect_dimension_and_metrics` on one representative row. -/
def detect_dimension_and_metrics (row : Row) : Option Str × List Str :=
  let (metrics, nonNumeric) := classifyCols row
  let lowers := row.foldl (fun acc p => dictInsert (lowerS p.1) p.1 acc) []
  let dimension := match DIMENSION_PRIORITY.findSome? (fun k => List.lookup k lowers) with
    | some d => some d
    | none => nonNumeric.head?
  (dimension, List.insertionSort (fun a b => metricPriority a ≤ metricPriority b) metrics)

/- ==========================================================================
evidence.py — labels and number formatting
========================================================================== -/

/-- The fixed label table of `_get_label`. -/
def labelPairs : List (Str × Str) :=
  [(str "impressions", str "表示回数"), (str "clicks", str "クリック数"),
   (str "cost", str "費用"), (str "conversions", str "CV数"),
   (str "conversion_value", str "CV価値"), (str "ctr", str "CTR"),
   (str "cpc", str "CPC"), (str "cvr", str "CVR"), (str "cpa", str "CPA"),
   (str "roas", str "ROAS"), (str "date", str "日付")]

/-- Model of Python `str.title()` over ASCII letters: a letter following a
non-letter is upper-cased, a letter following a letter is lower-cased. -/
def titlePyAux : Bool → Str → Str
  | _, [] => []
  | prevCased, c :: t =>
    if c.isAlpha then (if prevCased then c.toLower else c.toUpper) :: titlePyAux true t
    else c :: titlePyAux false t

/-- Model of `_get_label`. -/
def get_label (col : Str) : Str :=
  match List.lookup (lowerS col) labelPairs with
  | some l => l
  | none => titlePyAux false (col.map (fun c => if c == '_' then ' ' else c))

/-- Integer rendering (Python `str(int)`). -/
def intStr (i : Int) : Str :=
  if i < 0 then '-' :: natDigits i.natAbs else natDigits i.natAbs

/-- Model of Python fixed-point formatting (`format(x, ".2f")` etc.) on the
exact rational value, rounding half to even; `forceSign` models the `+`
flag.  (CPython rounds the decimal expansion of the binary double; on the
exact values exercised here the two agree.) -/
def fmtFixed (prec : Nat) (forceSign : Bool) (x : ℚ) : Str :=
  let scaled := x * (10 : ℚ) ^ prec
  let fl : ℤ := ⌊scaled⌋
  let fr : ℚ := scaled - (fl : ℚ)
  let n : ℤ :=
    if fr < 1 / 2 then fl
    else if 1 / 2 < fr then fl + 1
    else if fl % 2 == 0 then fl else fl + 1
  let sign : Str := if x < 0 then ['-'] else if forceSign then ['+'] else []
  let ds := natDigits n.natAbs
  let ds := if ds.length < prec + 1 then List.replicate (prec + 1 - ds.length) '0' ++ ds else ds
  sign ++ ds.take (ds.length - prec) ++ (if prec == 0 then [] else '.' :: ds.drop (ds.length - prec))

/-- `sep.join(parts)`. -/
def joinSep (sep : Str) : List Str → Str
  | [] => []
  | [x] => x
  | x :: t => x ++ sep ++ joinSep sep t

/-- Python `str(value)` for the value shapes reachable as dimension values.
Strings render as themselves (the only case the claims exercise);
`None`/booleans render as their Python spellings; an integral float renders
with a trailing `.0`; the remaining float/collection renderings (shortest
round-trip repr) are outside the model. -/
def pyStr : JVal → Str
  | .jstr s => s
  | .jnull => str "None"
  | .jbool true => str "True"
  | .jbool false => str "False"
  | .jnum q => if q.den = 1 then intStr q.num ++ str ".0" else str "?"
  | .jarr _ => str "?"
  | .jobj _ => str "?"

/-- `str(row.get(dim, dflt))`. -/
def pyStrDefault (v : Option JVal) (dflt : Str) : Str :=
  match v with
  | none => dflt
  | some j => pyStr j

/-- Python truthiness of the dimension argument (`if not dimension`):
`None` and the empty string are falsy. -/
def pyTruthyStr : Option Str → Bool
  | none => false
  | some s => !s.isEmpty

/- ==========================================================================
evidence.py — analyses
========================================================================== -/

/-- Values of a metric column across the rows (`_safe_float` per row,
`None` skipped). -/
def colValues (data : List Row) (col : Str) : List ℚ :=
  data.filterMap (fun r => pySafeFloat (rowGet r col))

/-- Python `sum` (left fold from 0). -/
def sumQ (l : List ℚ) : ℚ := l.foldl (· + ·) 0

/-- Python `max` on a non-empty list (0 as an unused default). -/
def maxQ : List ℚ → ℚ
  | [] => 0
  | x :: t => t.foldl max x

/-- Python `min` on a non-empty list (0 as an unused default). -/
def minQ : List ℚ → ℚ
  | [] => 0
  | x :: t => t.foldl min x

def meanQ (l : List ℚ) : ℚ := sumQ l / (l.length : ℚ)

/-- The ratio-type derived metrics that must not be summed. -/
def derivedNames : List Str :=
  [str "ctr", str "cpc", str "cvr", str "cpa", str "roas"]

def isDerivedCol (col : Str) : Bool := derivedNames.contains (lowerS col)

/-- The per-column aggregation record of `_calculate_aggregations`:
mean/max/min only for ratio-type derived metrics, sum included otherwise. -/
def aggEntry (col : Str) (vs : List ℚ) : List (Str × ℚ) :=
  if isDerivedCol col then
    [(str "平均", meanQ vs), (str "最大", maxQ vs), (str "最小", minQ vs)]
  else
    [(str "合計", sumQ vs), (str "平均", meanQ vs), (str "最大", maxQ vs), (str "最小", minQ vs)]

def calcAggsAux (data : List Row) : List Str → List (Str × List (Str × ℚ)) → List (Str × List (Str × ℚ))
  | [], acc => acc
  | col :: cs, acc =>
    let vs := colValues data col
    if vs.isEmpty then calcAggsAux data cs acc
    else calcAggsAux data cs (dictInsert (get_label col) (aggEntry col vs) acc)

/-- Model of `_calculate_aggregations` (top 7 metric columns). -/
def calculate_aggregations (data : List Row) (metricCols : List Str) :
    List (Str × List (Str × ℚ)) :=
  calcAggsAux data (metricCols.take 7) []

/-- One entry of the dispersion narrative of `_generate_analysis`, kept in
structured form.  The rendered coefficient of variation is
`√variance / mean × 100`, an irrational number; the item records the exact
`mean` and population `variance` instead, together with the bucket label the
code derives from them (computed here by the equivalent exact comparisons
`cv > B ⟺ variance > (B/100·mean)²`, valid since `mean > 0`). -/
inductive AnalysisItem where
  | maxMinRatio (label : Str) (value : ℚ)
  | variability (label : Str) (grade : Str) (mean : ℚ) (variance : ℚ)
deriving DecidableEq

/-- The variability bucket of `_generate_analysis`
(cv > 50 / > 30 / > 15 / otherwise), decided exactly. -/
def cvGrade (avg variance : ℚ) : Str :=
  if avg * avg / 4 < variance then str "非常に大きい"
  else if avg * avg * 9 / 100 < variance then str "大きい"
  else if avg * avg * 9 / 400 < variance then str "中程度"
  else str "小さい"

def generateAnalysisFor (data : List Row) (col : Str) : List AnalysisItem :=
  let values := colValues data col
  if values.length < 2 then []
  else
    let label := get_label col
    let mx := maxQ values
    let mn := minQ values
    let avg := meanQ values
    (if 0 < mn then [AnalysisItem.maxMinRatio label (mx / mn)] else []) ++
    (if 0 < avg then
      [AnalysisItem.variability label
        (cvGrade avg (sumQ (values.map (fun v => (v - avg) * (v - avg))) / (values.length : ℚ)))
        avg
        (sumQ (values.map (fun v => (v - avg) * (v - avg))) / (values.length : ℚ))]
     else [])

/-- Model of `_generate_analysis` (top 4 metric columns, each needing at
least two values). -/
def generate_analysis (data : List Row) (metricCols : List Str) : List AnalysisItem :=
  (metricCols.take 4).flatMap (generateAnalysisFor data)

/-- One ranking entry (`{"rank": …, "name": …, "metric": …, "value": …}`). -/
structure RankingEntry where
  rank : Nat
  name : Str
  metricLabel : Str
  value : ℚ
deriving DecidableEq

/-- Model of `_generate_rankings`: name/value pairs with a valid value,
stable-sorted descending by value, top 5 with 1-based ranks. -/
def generate_rankings (data : List Row) (dimension : Option Str) (metric : Str) :
    List RankingEntry :=
  if !pyTruthyStr dimension then []
  else
    let dim := dimension.getD []
    let valid := data.filterMap (fun r =>
      (pySafeFloat (rowGet r metric)).map (fun v => (pyStrDefault (rowGet r dim) (str "不明"), v)))
    let sorted := List.insertionSort (fun a b : Str × ℚ => b.2 ≤ a.2) valid
    let label := get_label metric
    (sorted.take 5).enum.map (fun p => ⟨p.1 + 1, p.2.1, label, p.2.2⟩)

/-- The share-analysis record (`top_name`/`top_share`/`top3_share`); the
whole record is absent (Python `{}`) when its preconditions fail. -/
structure ShareInfo where
  topName : Str
  topShare : ℚ
  top3Share : Option ℚ
deriving DecidableEq

/-- Model of `_calculate_share_analysis`. -/
def calculate_share_analysis (data : List Row) (dimension : Option Str) (metric : Str) :
    Option ShareInfo :=
  if !pyTruthyStr dimension then none
  else
    let dim := dimension.getD []
    let pairs := data.filterMap (fun r =>
      (pySafeFloat (rowGet r metric)).map (fun v => (pyStrDefault (rowGet r dim) (str "不明"), v)))
    if pairs.isEmpty then none
    else
      let total := sumQ (pairs.map Prod.snd)
      if total ≤ 0 then none
      else
        let sorted := List.insertionSort (fun a b : Str × ℚ => b.2 ≤ a.2) pairs
        match sorted with
        | [] => none
        | (topName, topVal) :: _ =>
          some ⟨topName, topVal / total * 100,
            if 3 ≤ pairs.length then
              some (sumQ ((sorted.take 3).map Prod.snd) / total * 100)
            else none⟩

structure CategoryBest where
  name : Str
  avg : ℚ
deriving DecidableEq

structure CategoryWorst where
  name : Str
  avg : ℚ
  ratioValue : ℚ
deriving DecidableEq

/-- The category-analysis record; `ratioValue` is the `ratio` key of the
`worst` entry. -/
structure CategoryInfo where
  best : CategoryBest
  worst : CategoryWorst
deriving DecidableEq

/-- Category key: the part of the name before the first `_`, or the whole
name when it has none. -/
def catKey (name : Str) : Str :=
  if name.contains '_' then name.takeWhile (fun c => !(c == '_')) else name

/-- `cat_vals.setdefault(cat, []).append(v)`: group insertion-ordered. -/
def catValsAdd (cat : Str) (v : ℚ) : List (Str × List ℚ) → List (Str × List ℚ)
  | [] => [(cat, [v])]
  | (k, vs) :: t => if k == cat then (k, vs ++ [v]) :: t else (k, vs) :: catValsAdd cat v t

/-- The grouping loop of `_calculate_category_analysis`. -/
def catVals (data : List Row) (dim : Str) (metric : Str) : List (Str × List ℚ) :=
  data.foldl (fun acc r =>
    match pySafeFloat (rowGet r metric) with
    | none => acc
    | some v =>
      let cat := catKey (pyStrDefault (rowGet r dim) [])
      if cat.isEmpty then acc else catValsAdd cat v acc) []

/-- Per-category means, in first-occurrence order. -/
def catAvgs (data : List Row) (dim : Str) (metric : Str) : List (Str × ℚ) :=
  (catVals data dim metric).map (fun p => (p.1, meanQ p.2))

/-- `lower_is_better`: the metric name contains `cpa`, `cpc` or `cost`. -/
def lowerIsBetter (metric : Str) : Bool :=
  [str "cpa", str "cpc", str "cost"].any (fun x => isSubstr x (lowerS metric))

/-- Model of `_calculate_category_analysis`. -/
def calculate_category_analysis (data : List Row) (dimension : Option Str) (metric : Str) :
    Option CategoryInfo :=
  if !pyTruthyStr dimension then none
  else
    let dim := dimension.getD []
    let avgs := catAvgs data dim metric
    if avgs.length < 2 then none
    else
      let sorted := List.insertionSort (fun a b : Str × ℚ => a.2 ≤ b.2) avgs
      match sorted.head?, sorted.getLast? with
      | some (bestCat, bestAvg), some (worstCat, worstAvg) =>
        if lowerIsBetter metric then
          some ⟨⟨bestCat, bestAvg⟩,
                ⟨worstCat, worstAvg, if 0 < bestAvg then worstAvg / bestAvg else 0⟩⟩
        else
          some ⟨⟨worstCat, worstAvg⟩,
                ⟨bestCat, bestAvg, if 0 < bestAvg then worstAvg / bestAvg else 0⟩⟩
      | _, _ => none

/- ==========================================================================
evidence.py — period comparison
========================================================================== -/

/-- One per-metric entry of the period comparison; `changePct` is `None`
(key present, value `None` in Python) when the previous-half sum is 0. -/
structure PCEntry where
  prevSum : ℚ
  currSum : ℚ
  change : ℚ
  changePct : Option ℚ
deriving DecidableEq

structure PeriodInfo where
  dateCol : Str
  prevStart : Str
  prevEnd : Str
  currStart : Str
  currEnd : Str
  metrics : List (Str × PCEntry)
  summary : Option Str
deriving DecidableEq

/-- Date-column detection of `_calculate_period_comparison`. -/
def findDateCol (data : List Row) : Option Str :=
  match data with
  | [] => none
  | r0 :: _ =>
    if (rowGet r0 (str "date")).isSome then some (str "date")
    else r0.findSome? (fun p =>
      if lowerS p.1 == str "date" || isDateLikeJ p.2 then some p.1 else none)

/-- Is `r.get(dcol)` date-like? -/
def rowDateLike (r : Row) (dcol : Str) : Bool :=
  match rowGet r dcol with
  | some v => isDateLikeJ v
  | none => false

/-- `str(r.get(date_col))` as the sort key; the rows are pre-filtered to
date-like values, so the value is a string. -/
def dateKeyOf (r : Row) (dcol : Str) : Str :=
  match rowGet r dcol with
  | some (.jstr s) => s
  | _ => []

/-- Lexicographic string order on code points (Python `str` comparison). -/
def strLe : Str → Str → Bool
  | [], _ => true
  | _ :: _, [] => false
  | a :: as', b :: bs => if a < b then true else if b < a then false else strLe as' bs

/-- The date-like rows, stable-sorted ascending by date string. -/
def periodRows (data : List Row) (dcol : Str) : List Row :=
  List.insertionSort (fun a b => strLe (dateKeyOf a dcol) (dateKeyOf b dcol) = true)
    (data.filter (fun r => rowDateLike r dcol))

/-- The inner `sum_metric` of `_calculate_period_comparison`. -/
def sum_metric (rs : List Row) (col : Str) : ℚ :=
  rs.foldl (fun s r =>
    match pySafeFloat (rowGet r col) with
    | some v => s + v
    | none => s) 0

/-- Distinct elements, first-occurrence order (model of `set(...)` for
counting). -/
def dedupStr (l : List Str) : List Str :=
  l.foldl setAddUnique []

/-- The headline labels of the summary line, in fixed order. -/
def summaryKeys : List Str :=
  [str "費用", str "CV数", str "ROAS", str "CPA", str "クリック数", str "表示回数"]

/-- Model of `_calculate_period_comparison`. -/
def calculate_period_comparison (data : List Row) (metricCols : List Str) :
    Option PeriodInfo :=
  match findDateCol data with
  | none => none
  | some dcol =>
    let rows := periodRows data dcol
    if rows.length < 4 then none
    else if (dedupStr (rows.map (fun r => dateKeyOf r dcol))).length < max 3 (rows.length / 3) then
      none
    else
      let mid := rows.length / 2
      let prev := rows.take mid
      let curr := rows.drop mid
      if prev.isEmpty || curr.isEmpty then none
      else
        let ms := (metricCols.take 5).foldl (fun acc col =>
          let ps := sum_metric prev col
          let cs := sum_metric curr col
          dictInsert (get_label col)
            (⟨ps, cs, cs - ps, if ps ≠ 0 then some ((cs - ps) / |ps| * 100) else none⟩ : PCEntry)
            acc) []
        let parts := summaryKeys.foldl (fun acc k =>
          match List.lookup k ms with
          | some e =>
            match e.changePct with
            | some p => acc ++ [k ++ str "は" ++ fmtFixed 1 true p ++ str "%"]
            | none => acc
          | none => acc) []
        some
          { dateCol := dcol
            prevStart := dateKeyOf (prev.headD []) dcol
            prevEnd := dateKeyOf ((prev.getLast?).getD []) dcol
            currStart := dateKeyOf (curr.headD []) dcol
            currEnd := dateKeyOf ((curr.getLast?).getD []) dcol
            metrics := ms
            summary := if parts.isEmpty then none else some (joinSep (str "、") parts) }

/- ==========================================================================
evidence.py — Evidence and build_evidence
========================================================================== -/

/-- The `Evidence` dataclass.  Python's empty-`dict` fields are modelled as
`none`; the `analysis` list of narrative strings is kept as structured
`AnalysisItem`s (see there). -/
structure Evidence where
  question : Str
  sql : Str
  row_count : Nat
  raw_data : List Row
  aggregations : List (Str × List (Str × ℚ))
  analysisItems : List AnalysisItem
  rankings : List RankingEntry
  share_analysis : Option ShareInfo
  category_analysis : Option CategoryInfo
  period_comparison : Option PeriodInfo

/-- Rendering of one analysis narrative line (`f"- {a}"` body).  The
variability line's coefficient of variation is irrational and is rendered
as a placeholder; no claim inspects it. -/
def analysisLine : AnalysisItem → Str
  | .maxMinRatio label v => label ++ str "の最大は最小の" ++ fmtFixed 1 false v ++ str "倍"
  | .variability label grade _ _ =>
    label ++ str "のばらつきは" ++ grade ++ str "（変動係数" ++ str "…" ++ str "%）"

/-- Model of `Evidence.to_prompt`: the section-gated Markdown rendering,
with Python `:.2f` / `:.1f` fixed-point formatting. -/
def to_prompt (e : Evidence) : Str :=
  let parts : List Str :=
    [str "## 質問\n" ++ e.question,
     str "\n## 実行SQL\n\n" ++ e.sql ++ str "\n```",
     str "\n## 結果行数: " ++ natDigits e.row_count ++ str "件"]
  let parts := parts ++
    (if e.aggregations.isEmpty then []
     else (str "\n## 集計結果") ::
       e.aggregations.map (fun p =>
         str "- " ++ p.1 ++ str ": " ++
         joinSep (str ", ") (p.2.map (fun kv => kv.1 ++ str ": " ++ fmtFixed 2 false kv.2))))
  let parts := parts ++
    (if e.analysisItems.isEmpty then []
     else (str "\n## 分析") :: e.analysisItems.map (fun a => str "- " ++ analysisLine a))
  let parts := parts ++
    (if e.rankings.isEmpty then []
     else (str "\n## ランキング") ::
       e.rankings.map (fun r =>
         str "- " ++ natDigits r.rank ++ str "位: " ++ r.name ++ str " (" ++
         r.metricLabel ++ str ": " ++ fmtFixed 2 false r.value ++ str ")"))
  let parts := parts ++
    (match e.share_analysis with
     | none => []
     | some s =>
       [str "\n## シェア分析",
        str "- トップ: " ++ s.topName ++ str " (" ++ fmtFixed 1 false s.topShare ++ str "%)"] ++
       (match s.top3Share with
        | some t3 => [str "- 上位3件合計: " ++ fmtFixed 1 false t3 ++ str "%"]
        | none => []))
  let parts := parts ++
    (match e.category_analysis with
     | none => []
     | some c =>
       [str "\n## カテゴリ分析",
        str "- ベスト: " ++ c.best.name ++ str " (平均: " ++ fmtFixed 2 false c.best.avg ++ str ")",
        str "- ワースト: " ++ c.worst.name ++ str " (平均: " ++ fmtFixed 2 false c.worst.avg ++ str ")"])
  let parts := parts ++
    (match e.period_comparison with
     | none => []
     | some pc =>
       (str "\n## 期間比較") ::
       (match pc.summary with
        | some s => [str "- " ++ s]
        | none => []))
  joinSep (str "\n") parts

/-- The `Evidence` returned for an empty row set. -/
def emptyEvidence (question sql : Str) : Evidence :=
  ⟨question, sql, 0, [], [], [], [], none, none, none⟩

/-- Model of `build_evidence`; exceptions escaping the Python function
(non-row list elements) are modelled as `Except.error`. -/
def build_evidence (sql_result sql_query question : Str) : Except PyErr Evidence :=
  let data0 := parse_sql_result sql_result
  if data0.isEmpty then .ok (emptyEvidence question sql_query)
  else
    match add_derived_metrics data0 with
    | .error e => .error e
    | .ok data =>
      let (dimension, metrics) := detect_dimension_and_metrics (data.headD [])
      let aggregations := if !metrics.isEmpty then calculate_aggregations data metrics else []
      let analysisItems :=
        if 2 ≤ data.length && !metrics.isEmpty then generate_analysis data metrics else []
      let dimOk := pyTruthyStr dimension
      let rankings :=
        match metrics with
        | m0 :: _ => if dimOk then generate_rankings data dimension m0 else []
        | [] => []
      let share :=
        match metrics with
        | m0 :: _ => if dimOk then calculate_share_analysis data dimension m0 else none
        | [] => none
      let category :=
        match metrics with
        | m0 :: _ => if dimOk then calculate_category_analysis data dimension m0 else none
        | [] => none
      let period :=
        if !metrics.isEmpty then calculate_period_comparison data metrics else none
      .ok
        { question := question
          sql := sql_query
          row_count := data.length
          raw_data := data
          aggregations := aggregations
          analysisItems := analysisItems
          rankings := rankings
          share_analysis := share
          category_analysis := category
          period_comparison := period }

/- ==========================================================================
Concrete inputs referenced by the claims
========================================================================== -/

/-- The end-to-end rows of claim C4, in the upstream transport format. -/
def c4input : Str :=
  str "[\x7b\"name\": \"EC_Search\", \"cost\": 100, \"clicks\": 10\x7d, \x7b\"name\": \"EC_Display\", \"cost\": 300, \"clicks\": 30\x7d]"

/-- The evidence built from the C4 rows (the build succeeds; the default is
never used). -/
def c4evidence : Evidence :=
  (build_evidence c4input (str "SELECT name, cost, clicks FROM campaigns")
    (str "which campaign costs most")).toOption.getD (emptyEvidence [] [])

/-- An `Evidence` whose aggregation holds the value 2,000,000 (claim C6). -/
def c6evidence : Evidence :=
  { question := str "q"
    sql := str "s"
    row_count := 1
    raw_data := []
    aggregations := [(str "費用", [(str "合計", 2000000)])]
    analysisItems := []
    rankings := []
    share_analysis := none
    category_analysis := none
    period_comparison := none }

/-- Claim C7's concrete rows under a cost-like metric: categories A
(values 8, 12) and B (values 25, 35). -/
def c7costRows : List Row :=
  [[(str "name", .jstr (str "A_x")), (str "cost", .jnum 8)],
   [(str "name", .jstr (str "A_y")), (str "cost", .jnum 12)],
   [(str "name", .jstr (str "B_x")), (str "cost", .jnum 25)],
   [(str "name", .jstr (str "B_y")), (str "cost", .jnum 35)]]

/-- The same categories under a higher-is-better metric (`clicks`). -/
def c7clickRows : List Row :=
  [[(str "name", .jstr (str "A_x")), (str "clicks", .jnum 8)],
   [(str "name", .jstr (str "A_y")), (str "clicks", .jnum 12)],
   [(str "name", .jstr (str "B_x")), (str "clicks", .jnum 25)],
   [(str "name", .jstr (str "B_y")), (str "clicks", .jnum 35)]]

/-- Claim C8's six rows with distinct ascending dates and metric values
10..60. -/
def c8rows : List Row :=
  [[(str "date", .jstr (str "2024-01-01")), (str "cost", .jnum 10)],
   [(str "date", .jstr (str "2024-01-02")), (str "cost", .jnum 20)],
   [(str "date", .jstr (str "2024-01-03")), (str "cost", .jnum 30)],
   [(str "date", .jstr (str "2024-01-04")), (str "cost", .jnum 40)],
   [(str "date", .jstr (str "2024-01-05")), (str "cost", .jnum 50)],
   [(str "date", .jstr (str "2024-01-06")), (str "cost", .jnum 60)]]

/-- A row set with one derived and one base metric (claim C5's witness). -/
def c5rows : List Row :=
  [[(str "cpc", .jnum 2), (str "cost", .jnum 5)],
   [(str "cpc", .jnum 4), (str "cost", .jnum 7)]]

/- ==========================================================================
Helper lemmas
========================================================================== -/

theorem takeWhile_append_all {p : Char → Bool} :
    ∀ (l r : Str), (∀ c ∈ l, p c = true) →
      List.takeWhile p (l ++ r) = l ++ List.takeWhile p r := by
  intro l r h
  induction l with
  | nil => rfl
  | cons a t ih =>
    rw [List.cons_append, List.takeWhile_cons, h a (List.mem_cons_self a t),
      ih fun c hc => h c (List.mem_cons_of_mem a hc)]
    rfl

theorem dropWhile_append_all {p : Char → Bool} :
    ∀ (l r : Str), (∀ c ∈ l, p c = true) →
      List.dropWhile p (l ++ r) = List.dropWhile p r := by
  intro l r h
  induction l with
  | nil => rfl
  | cons a t ih =>
    have hrest := ih fun c hc => h c (List.mem_cons_of_mem a hc)
    simpa [List.dropWhile_cons, h a (List.mem_cons_self a t)] using hrest

theorem digitsVal_append_singleton (l : Str) (c : Char) :
    digitsVal (l ++ [c]) = digitsVal l * 10 + (c.toNat - 48) := by
  simp [digitsVal, List.foldl_append]

theorem natDigitsAux_spec :
    ∀ (fuel n : Nat), n < fuel →
      natDigitsAux fuel n ≠ [] ∧ (∀ c ∈ natDigitsAux fuel n, c.isDigit = true) ∧
      digitsVal (natDigitsAux fuel n) = n := by
  intro fuel
  induction fuel with
  | zero => intro n h; omega
  | succ f ih =>
    intro n h
    by_cases h10 : n < 10
    · refine ⟨by simp [natDigitsAux, h10], ?_, ?_⟩
      · intro c hc
        simp only [natDigitsAux, h10, if_true, List.mem_singleton] at hc
        subst hc
        interval_cases n <;> decide
      · simp only [natDigitsAux, h10, if_true]
        have : (Nat.digitChar n).toNat - 48 = n := by interval_cases n <;> decide
        simp [digitsVal, this]
    · have hd : n / 10 < f := by omega
      obtain ⟨hne, hdig, hval⟩ := ih (n / 10) hd
      refine ⟨?_, ?_, ?_⟩
      · simp [natDigitsAux, h10]
      · intro c hc
        simp only [natDigitsAux, h10, if_false, List.mem_append, List.mem_singleton] at hc
        rcases hc with hc | hc
        · exact hdig c hc
        · subst hc
          have : n % 10 < 10 := Nat.mod_lt _ (by omega)
          interval_cases hm : (n % 10) <;> simp_all <;> decide
      · simp only [natDigitsAux, h10, if_false]
        rw [digitsVal_append_singleton, hval]
        have hm : n % 10 < 10 := Nat.mod_lt _ (by omega)
        have : (Nat.digitChar (n % 10)).toNat - 48 = n % 10 := by
          interval_cases hmm : (n % 10) <;> decide
        rw [this]
        omega

theorem natDigits_ne_nil (n : Nat) : natDigits n ≠ [] :=
  (natDigitsAux_spec (n + 1) n (by omega)).1

theorem natDigits_all_digit (n : Nat) : ∀ c ∈ natDigits n, c.isDigit = true :=
  (natDigitsAux_spec (n + 1) n (by omega)).2.1

theorem digitsVal_natDigits (n : Nat) : digitsVal (natDigits n) = n :=
  (natDigitsAux_spec (n + 1) n (by omega)).2.2

theorem digit_not_space (c : Char) (h : c.isDigit = true) : isSpacePy c = false := by
  by_contra hne
  have hsp : isSpacePy c = true := by
    cases hx : isSpacePy c
    · exact absurd hx hne
    · rfl
  simp only [isSpacePy, Bool.or_eq_true, beq_iff_eq] at hsp
  rcases hsp with ((((rfl | rfl) | rfl) | rfl) | rfl) | rfl <;> simp [Char.isDigit] at h

theorem digit_ne_semi (c : Char) (h : c.isDigit = true) : (c == ';') = false := by
  by_contra hne
  have : c = ';' := by
    cases hx : c == ';'
    · exact absurd hx hne
    · exact eq_of_beq hx
  subst this
  simp [Char.isDigit] at h

/- ==========================================================================
Claim C1 — DML/DDL keywords and the Policy rejection
========================================================================== -/

/-- **C1, counterexample.**  The claim quantifies over *every* SQL text
containing a whole-word DML/DDL keyword; but `check_query` tests
`SELECT`-ness (step 4) before the keyword scan (step 5), so
`DROP TABLE campaigns` — which contains the whole-word keyword `DROP` — is
rejected with the `SELECT`-only (Syntax) error, not the DML/DDL Policy
error. -/
theorem c1_counterexample :
    denySearch (str "DROP TABLE campaigns") = true ∧
    check_query defaultGlobals (str "DROP TABLE campaigns") none false none =
      .invalid .notSelectStatement ∧
    ¬ check_query defaultGlobals (str "DROP TABLE campaigns") none false none =
      .invalid .dmlDdlForbidden := by
  refine ⟨by decide, by decide, by decide⟩

/-- **C1, amended.**  For every policy configuration and every call
argument, if the query passes the checks *preceding* the keyword scan
(non-empty after stripping, no multi-statement semicolons, starts with
`SELECT`) and the normalized text contains a whole-word DML/DDL keyword in
any letter case (`DENY_RE`), then `check_query` rejects with the DML/DDL
Policy error and no other kind. -/
theorem c1_amended (G : Globals) (q : Str) (sid : Option Int) (sub : Bool)
    (ml : Option Nat)
    (h1 : (stripPy q).isEmpty = false)
    (h2 : ¬ 1 < (stripPy q).count ';')
    (h3 : ((stripPy q).count ';' == 1 && !((stripPy q).getLast? == some ';')) = false)
    (h4 : startsCI (str "SELECT") (stripPy (rstripSemi (stripPy q))) = true)
    (h5 : denySearch (stripPy (rstripSemi (stripPy q))) = true) :
    check_query G q sid sub ml = .invalid .dmlDdlForbidden := by
  unfold check_query pre_checks
  simp [h1, h2, h3, h4, h5, denySearch]
  simp [denySearch] at h5
  simp [h5]

/-- **C1, witness** for the amended theorem at `SELECT drop`. -/
theorem c1_witness :
    denySearch (stripPy (rstripSemi (stripPy (str "SELECT drop")))) = true ∧
    check_query defaultGlobals (str "SELECT drop") none false none =
      .invalid .dmlDdlForbidden :=
  ⟨by decide,
   c1_amended defaultGlobals (str "SELECT drop") none false none
     (by decide) (by decide) (by decide) (by decide) (by decide)⟩

/- ==========================================================================
Claim C9 — dependence on ambient configuration
========================================================================== -/

/-- **C9, counterexample.**  The claim says two calls of `check_query` with
the same per-call arguments return the same result regardless of ambient
state.  But the code always reads `settings.default_limit` (and, with
`max_limit=None`, `settings.max_limit`, plus the module globals
`ALLOWED_TABLES` / `SERVICE_SCOPED_TABLES`) from process-wide state: with
identical per-call arguments and a different ambient `default_limit`, the
accepted text differs. -/
theorem c9_counterexample :
    check_query defaultGlobals (str "SELECT a FROM campaigns") none false none ≠
    check_query { defaultGlobals with default_limit := 200 }
      (str "SELECT a FROM campaigns") none false none := by
  decide

/-- **C9, amended.**  `check_query`'s result is determined by its explicit
per-call arguments *together with* the module-level configuration it reads
(`ALLOWED_TABLES`, `SERVICE_SCOPED_TABLES`, `settings.default_limit`,
`settings.max_limit`): two calls agreeing on all of those return the same
result. -/
theorem c9_amended (G G' : Globals) (q : Str) (sid : Option Int) (sub : Bool)
    (ml : Option Nat)
    (h1 : G.allowed_tables = G'.allowed_tables)
    (h2 : G.service_scoped_tables = G'.service_scoped_tables)
    (h3 : G.default_limit = G'.default_limit)
    (h4 : G.max_limit = G'.max_limit) :
    check_query G q sid sub ml = check_query G' q sid sub ml := by
  cases G
  cases G'
  simp only at h1 h2 h3 h4
  subst h1 h2 h3 h4
  rfl

/-- **C9, witness** for the amended theorem. -/
theorem c9_witness :
    check_query defaultGlobals (str "SELECT a FROM ads") none false none =
    check_query defaultGlobals (str "SELECT a FROM ads") none false none :=
  c9_amended defaultGlobals defaultGlobals (str "SELECT a FROM ads") none false none
    rfl rfl rfl rfl

/- ==========================================================================
Claim C10 — rejection when no table can be identified
========================================================================== -/

/-- **C10.**  For every configuration and argument list, a query that passes
the syntax, keyword, comment/dangerous, non-plain and subquery checks but
from which no table identifier can be extracted after `FROM`/`JOIN` is
rejected (table-identification error), never accepted. -/
theorem c10_no_table_rejected (G : Globals) (q : Str) (sid : Option Int) (sub : Bool)
    (ml : Option Nat)
    (h1 : (stripPy q).isEmpty = false)
    (h2 : ¬ 1 < (stripPy q).count ';')
    (h3 : ((stripPy q).count ';' == 1 && !((stripPy q).getLast? == some ';')) = false)
    (h4 : startsCI (str "SELECT") (stripPy (rstripSemi (stripPy q))) = true)
    (h5 : denySearch (stripPy (rstripSemi (stripPy q))) = false)
    (h6 : dangerousScan (stripPy (rstripSemi (stripPy q))) = false)
    (h7 : nonPlainSearch (stripPy (rstripSemi (stripPy q))) = false)
    (h8 : (!sub && subqueryScan (stripPy (rstripSemi (stripPy q)))) = false)
    (h9 : (extract_tables (stripPy (rstripSemi (stripPy q)))).isEmpty = true) :
    check_query G q sid sub ml = .invalid .tableUnknown := by
  unfold check_query pre_checks
  simp [h1, h2, h3, h4, h6, h9, denySearch, nonPlainSearch] at *
  cases sub
  · simp [h5, h7, h8 rfl]
  · simp [h5, h7]

/-- **C10, witness** at `SELECT 1`. -/
theorem c10_witness :
    (extract_tables (stripPy (rstripSemi (stripPy (str "SELECT 1"))))).isEmpty = true ∧
    check_query defaultGlobals (str "SELECT 1") none false none = .invalid .tableUnknown :=
  ⟨by decide,
   c10_no_table_rejected defaultGlobals (str "SELECT 1") none false none
     (by decide) (by decide) (by decide) (by decide) (by decide) (by decide)
     (by decide) (by decide) (by decide)⟩

/- ==========================================================================
Claim C2 — LIMIT normalization
========================================================================== -/

theorem checkLimitKwRev_boundary (r rp : Str) (h : checkLimitKwRev r = some rp) :
    headNotWord rp = true := by
  unfold checkLimitKwRev at h
  split at h
  · exact absurd h (by simp)
  · split at h
    · next heq =>
      split at h
      · next hcond =>
        simp only [Option.some.injEq] at h
        subst h
        simp only [Bool.and_eq_true] at hcond
        exact hcond.2
      · exact absurd h (by simp)
    · exact absurd h (by simp)

theorem parseLimitRev_boundary (r : Str) (n : Nat) (rp : Str)
    (h : parseLimitRev r = some (n, rp)) : headNotWord rp = true := by
  unfold parseLimitRev at h
  dsimp only at h
  split at h
  · exact absurd h (by simp)
  · split at h
    · split at h
      · exact absurd h (by simp)
      · split at h
        · next hk =>
          simp only [Option.some.injEq, Prod.mk.injEq] at h
          exact h.2 ▸ checkLimitKwRev_boundary _ _ hk
        · exact absurd h (by simp)
    · split at h
      · next hk =>
        simp only [Option.some.injEq, Prod.mk.injEq] at h
        exact h.2 ▸ checkLimitKwRev_boundary _ _ hk
      · exact absurd h (by simp)

/-- The reversed text `ds.reverse ++ (' ' :: (revLimitKw ++ rp))` — i.e. the
original text `rp.reverse ++ "LIMIT " ++ ds` — parses as a trailing LIMIT
clause with value `digitsVal ds` whenever `rp` starts at a word boundary. -/
theorem parseLimitRev_append (ds rp : Str) (h1 : ds ≠ [])
    (h2 : ∀ c ∈ ds, c.isDigit = true) (h3 : headNotWord rp = true) :
    parseLimitRev (ds.reverse ++ (' ' :: (revLimitKw ++ rp))) =
      some (digitsVal ds, rp) := by
  have hallrev : ∀ c ∈ ds.reverse, Char.isDigit c = true := by
    intro c hc
    exact h2 c (List.mem_reverse.mp hc)
  obtain ⟨d, t, hds⟩ : ∃ d t, ds.reverse = d :: t := by
    cases hrev : ds.reverse with
    | nil => exact absurd (by simpa using congrArg List.reverse hrev) h1
    | cons d t => exact ⟨d, t, rfl⟩
  have hdropSp :
      List.dropWhile isSpacePy (ds.reverse ++ (' ' :: (revLimitKw ++ rp))) =
        ds.reverse ++ (' ' :: (revLimitKw ++ rp)) := by
    rw [hds]
    simp [List.dropWhile_cons, digit_not_space d (hallrev d (by rw [hds]; simp))]
  have hsemi :
      dropOneSemi (ds.reverse ++ (' ' :: (revLimitKw ++ rp))) =
        ds.reverse ++ (' ' :: (revLimitKw ++ rp)) := by
    rw [hds]
    simp [dropOneSemi, digit_ne_semi d (hallrev d (by rw [hds]; simp))]
  have htake :
      List.takeWhile Char.isDigit (ds.reverse ++ (' ' :: (revLimitKw ++ rp))) =
        ds.reverse := by
    rw [takeWhile_append_all _ _ hallrev]
    simp [List.takeWhile_cons]
  have hdropDig :
      List.dropWhile Char.isDigit (ds.reverse ++ (' ' :: (revLimitKw ++ rp))) =
        ' ' :: (revLimitKw ++ rp) := by
    rw [dropWhile_append_all _ _ hallrev]
    simp [List.dropWhile_cons]
  have hspT : isSpacePy 'T' = false := by decide
  have hsp : isSpacePy ' ' = true := by decide
  have hkw : checkLimitKwRev (' ' :: (revLimitKw ++ rp)) = some rp := by
    unfold checkLimitKwRev
    simp only [revLimitKw, List.cons_append, List.nil_append, List.takeWhile_cons,
      List.dropWhile_cons, hsp, hspT, if_true, if_false, List.isEmpty_cons]
    simp [ciEqCh, h3]
  unfold parseLimitRev
  dsimp only
  rw [hdropSp, hsemi, hdropSp, htake, hdropDig]
  rw [hds]
  simp only [List.isEmpty_cons, Bool.false_eq_true, if_false, ← hds, hkw]
  have hr5 : List.dropWhile isSpacePy (' ' :: (revLimitKw ++ rp)) = revLimitKw ++ rp := by
    simp [List.dropWhile_cons, hsp, revLimitKw, hspT]
  rw [hr5]
  have : ((revLimitKw ++ rp).head? == some ',') = false := by
    simp [revLimitKw]
  rw [this]
  simp [hkw, List.reverse_reverse, h1]

/-- **C2.**  For every configuration and argument list, a query that passes
all checks before the LIMIT step is accepted (never rejected), and the
accepted text is the LIMIT-normalized query: when the normalized query has
no trailing LIMIT clause, the output is the query with ` LIMIT <default>`
appended — its (unique, end-anchored) trailing LIMIT clause equals the
configured default; when it has a trailing `LIMIT n[,m]` with `n` above the
effective maximum, the clause is replaced and the output's trailing LIMIT
clause equals the maximum. -/
theorem c2_limit_normalization (G : Globals) (q : Str) (sid : Option Int) (sub : Bool)
    (ml : Option Nat) (q' : Str) (h : pre_checks G q sid sub = .ok q') :
    check_query G q sid sub ml = .valid (apply_limit G ml q') ∧
    (extract_limit q' = none →
      apply_limit G ml q' =
        q' ++ ([' ', 'L', 'I', 'M', 'I', 'T', ' '] ++ natDigits G.default_limit) ∧
      extract_limit (apply_limit G ml q') = some G.default_limit) ∧
    (∀ n, extract_limit q' = some n → ml.getD G.max_limit < n →
      extract_limit (apply_limit G ml q') = some (ml.getD G.max_limit)) := by
  refine ⟨by simp [check_query, h], ?_, ?_⟩
  · intro he
    have happ : apply_limit G ml q' =
        q' ++ ([' ', 'L', 'I', 'M', 'I', 'T', ' '] ++ natDigits G.default_limit) := by
      unfold apply_limit
      dsimp only
      rw [he, List.append_assoc]
    refine ⟨happ, ?_⟩
    rw [happ]
    have hrev :
        (q' ++ ([' ', 'L', 'I', 'M', 'I', 'T', ' '] ++ natDigits G.default_limit)).reverse =
          (natDigits G.default_limit).reverse ++
            (' ' :: (revLimitKw ++ (' ' :: q'.reverse))) := by
      simp [revLimitKw, List.reverse_append]
    unfold extract_limit
    rw [hrev, parseLimitRev_append _ _ (natDigits_ne_nil _) (natDigits_all_digit _)
      (by simp [headNotWord, show isWordChar ' ' = false from by decide])]
    simp [digitsVal_natDigits]
  · intro n hn hlt
    obtain ⟨rp, hp⟩ : ∃ rp, parseLimitRev q'.reverse = some (n, rp) := by
      unfold extract_limit at hn
      cases hp : parseLimitRev q'.reverse with
      | none => rw [hp] at hn; exact absurd hn (by simp)
      | some p =>
        rw [hp] at hn
        have hfst : p.1 = n := by simpa using hn
        exact ⟨p.2, by rw [← hfst]⟩
    have hsub : subLimitClause q' (ml.getD G.max_limit) =
        rp.reverse ++ ['L', 'I', 'M', 'I', 'T', ' '] ++ natDigits (ml.getD G.max_limit) := by
      unfold subLimitClause
      rw [hp]
    have happ : apply_limit G ml q' =
        rp.reverse ++ ['L', 'I', 'M', 'I', 'T', ' '] ++ natDigits (ml.getD G.max_limit) := by
      unfold apply_limit
      dsimp only
      rw [hn]
      dsimp only
      rw [if_pos hlt, hsub]
    rw [happ]
    have hrev :
        (rp.reverse ++ ['L', 'I', 'M', 'I', 'T', ' '] ++ natDigits (ml.getD G.max_limit)).reverse =
          (natDigits (ml.getD G.max_limit)).reverse ++ (' ' :: (revLimitKw ++ rp)) := by
      simp [revLimitKw, List.reverse_append]
    unfold extract_limit
    rw [hrev, parseLimitRev_append _ _ (natDigits_ne_nil _) (natDigits_all_digit _)
      (parseLimitRev_boundary _ _ _ hp)]
    simp [digitsVal_natDigits]

/-- **C2, witness**: one query without a trailing LIMIT (the default 100 is
appended) and one whose `LIMIT 5000` exceeds the maximum 1000 (clamped). -/
theorem c2_witness :
    (check_query defaultGlobals (str "SELECT a FROM campaigns") none false none =
        .valid (apply_limit defaultGlobals none (str "SELECT a FROM campaigns")) ∧
      (extract_limit (str "SELECT a FROM campaigns") = none →
        apply_limit defaultGlobals none (str "SELECT a FROM campaigns") =
          str "SELECT a FROM campaigns" ++
            ([' ', 'L', 'I', 'M', 'I', 'T', ' '] ++ natDigits defaultGlobals.default_limit) ∧
        extract_limit (apply_limit defaultGlobals none (str "SELECT a FROM campaigns")) =
          some defaultGlobals.default_limit) ∧
      (∀ n, extract_limit (str "SELECT a FROM campaigns") = some n →
        (none : Option Nat).getD defaultGlobals.max_limit < n →
        extract_limit (apply_limit defaultGlobals none (str "SELECT a FROM campaigns")) =
          some ((none : Option Nat).getD defaultGlobals.max_limit))) ∧
    (∀ n, extract_limit (str "SELECT a FROM campaigns LIMIT 5000") = some n →
      (none : Option Nat).getD defaultGlobals.max_limit < n →
      extract_limit (apply_limit defaultGlobals none (str "SELECT a FROM campaigns LIMIT 5000")) =
        some ((none : Option Nat).getD defaultGlobals.max_limit)) :=
  ⟨c2_limit_normalization defaultGlobals (str "SELECT a FROM campaigns") none false none
      (str "SELECT a FROM campaigns") (by rfl),
   (c2_limit_normalization defaultGlobals (str "SELECT a FROM campaigns LIMIT 5000") none false
      none (str "SELECT a FROM campaigns LIMIT 5000") (by rfl)).2.2⟩

/- ==========================================================================
Claim C3 — build_evidence on arbitrary input
========================================================================== -/

/-- **C3, the code violates the claim.**  `_parse_sql_result` checks only
`isinstance(loaded, list)`, not that the elements are row objects; on the
input `"[1, 2, 3]"` it returns `[1, 2, 3]` (contradicting its annotated
return type `list[dict]`), and `_add_derived_metrics` then evaluates
`dict(1)`, raising `TypeError` out of `build_evidence` instead of returning
an `Evidence`. -/
theorem c3_raises_on_non_row_elements :
    build_evidence (str "[1, 2, 3]") (str "SELECT 1") (str "q") = .error .typeErr := by
  with_unfolding_all rfl

/- ==========================================================================
Claim C4 — end-to-end example
========================================================================== -/

/-- **C4, counterexample.**  On the claim's two rows, `build_evidence`
auto-derives `cpc = cost/clicks` (both rows: 10.0) and the metric ordering
puts `cpc` before `cost`; ranking and share therefore use CPC, not cost:
the top share is 50 %, not 75 %, and the first-ranked name is `EC_Search`
with value 10, not `EC_Display` with value 300. -/
theorem c4_counterexample :
    c4evidence.share_analysis.map ShareInfo.topShare = some 50 ∧
    ¬ c4evidence.share_analysis.map ShareInfo.topShare = some 75 ∧
    ¬ c4evidence.rankings.map (fun r => (r.rank, r.name, r.value)) =
        [(1, str "EC_Display", (300 : ℚ)), (2, str "EC_Search", 100)] := by
  have hs : c4evidence.share_analysis.map ShareInfo.topShare = some 50 := by
    with_unfolding_all rfl
  have hr : c4evidence.rankings.map (fun r => (r.rank, r.name, r.value)) =
      [(1, str "EC_Search", (10 : ℚ)), (2, str "EC_Display", 10)] := by
    with_unfolding_all rfl
  refine ⟨hs, ?_, ?_⟩
  · rw [hs]
    with_unfolding_all decide
  · rw [hr]
    with_unfolding_all decide

/-- **C4, amended.**  On the claim's rows the cost Aggregation is
`{sum 400, mean 200, max 300, min 100}` as stated, but ranking and share run
on the auto-selected primary metric CPC (value 10 in both rows): the
ranking is `[{rank 1, EC_Search, CPC, 10}, {rank 2, EC_Display, CPC, 10}]`
(stable order) and the share analysis is `top_name = EC_Search`,
`top_share = 50.0` with no top-3 entry. -/
theorem c4_amended :
    List.lookup (str "費用") c4evidence.aggregations =
      some [(str "合計", 400), (str "平均", 200), (str "最大", 300), (str "最小", 100)] ∧
    c4evidence.rankings =
      [⟨1, str "EC_Search", str "CPC", 10⟩, ⟨2, str "EC_Display", str "CPC", 10⟩] ∧
    c4evidence.share_analysis = some ⟨str "EC_Search", 50, none⟩ := by
  refine ⟨?_, ?_, ?_⟩ <;> with_unfolding_all rfl

/- ==========================================================================
Claim C6 — numeric formatting of the text rendering
========================================================================== -/

/-- **C6, the code violates the claim.**  `Evidence.to_prompt` renders every
aggregation value with plain `f"{v:.2f}"`: the value 2,000,000 appears as
`2000000.00`, not as `2.00M`; no mega/kilo scaling, 4-decimal small-value
branch, thousands separators or `N/A` fallback exists in the function (its
own docstring promises the `200.71M` style).  This is the full rendered
output for an `Evidence` holding `{"費用": {"合計": 2000000}}`. -/
theorem c6_plain_formatting :
    to_prompt c6evidence =
      str "## 質問\nq\n\n## 実行SQL\n\ns\n```\n\n## 結果行数: 1件\n\n## 集計結果\n- 費用: 合計: 2000000.00" := by
  with_unfolding_all rfl

/- ==========================================================================
Claim C5 — ratio-type metrics never get a sum
========================================================================== -/

theorem dictInsert_mem {α : Type} (k : Str) (v : α) :
    ∀ (l : List (Str × α)) (p), p ∈ dictInsert k v l → p = (k, v) ∨ p ∈ l := by
  intro l
  induction l with
  | nil => intro p hp; simp [dictInsert] at hp; exact Or.inl hp
  | cons x t ih =>
    intro p hp
    unfold dictInsert at hp
    split at hp
    · next hk =>
      rcases List.mem_cons.mp hp with h | h
      · left
        rw [h]
        simp [eq_of_beq hk]
      · right; exact List.mem_cons_of_mem _ h
    · rcases List.mem_cons.mp hp with h | h
      · right; rw [h]; exact List.mem_cons_self _ _
      · rcases ih p h with h' | h'
        · exact Or.inl h'
        · exact Or.inr (List.mem_cons_of_mem _ h')

theorem calcAggsAux_mem (data : List Row) :
    ∀ (cols : List Str) (acc : List (Str × List (Str × ℚ))) (p),
      p ∈ calcAggsAux data cols acc →
      p ∈ acc ∨ ∃ col ∈ cols, colValues data col ≠ [] ∧
        p = (get_label col, aggEntry col (colValues data col)) := by
  intro cols
  induction cols with
  | nil => intro acc p hp; exact Or.inl hp
  | cons c cs ih =>
    intro acc p hp
    unfold calcAggsAux at hp
    dsimp only at hp
    split at hp
    · rcases ih _ _ hp with h | ⟨col, hcol, hv, he⟩
      · exact Or.inl h
      · exact Or.inr ⟨col, List.mem_cons_of_mem _ hcol, hv, he⟩
    · next hvne =>
      rcases ih _ _ hp with h | ⟨col, hcol, hv, he⟩
      · rcases dictInsert_mem _ _ _ _ h with h' | h'
        · refine Or.inr ⟨c, List.mem_cons_self _ _, ?_, h'⟩
          intro hnil
          rw [hnil] at hvne
          exact hvne rfl
        · exact Or.inl h'
      · exact Or.inr ⟨col, List.mem_cons_of_mem _ hcol, hv, he⟩

theorem aggEntry_lookup_sum (col : Str) (vs : List ℚ) :
    List.lookup (str "合計") (aggEntry col vs) =
      if isDerivedCol col then none else some (sumQ vs) := by
  unfold aggEntry
  split
  · simp [List.lookup, show ((str "合計") == (str "平均")) = false from by decide,
      show ((str "合計") == (str "最大")) = false from by decide,
      show ((str "合計") == (str "最小")) = false from by decide]
  · simp [List.lookup, show ((str "合計") == (str "合計")) = true from by decide]

theorem aggEntry_lookup_mean (col : Str) (vs : List ℚ) :
    List.lookup (str "平均") (aggEntry col vs) = some (meanQ vs) := by
  unfold aggEntry
  split <;>
    simp [List.lookup, show ((str "平均") == (str "合計")) = false from by decide,
      show ((str "平均") == (str "平均")) = true from by decide]

/-- **C5.**  Every entry of the Aggregation output is produced from one of
the first seven metric columns with at least one coercible value; an entry
produced from a ratio-type derived metric (ctr/cpc/cvr/cpa/roas, by
lower-cased name) has no `合計` (sum) key, while an entry produced from any
other metric carries `合計` with the sum of its values; every entry carries
`平均` (mean). -/
theorem c5_no_sum_for_ratio_metrics (data : List Row) (metricCols : List Str)
    (p : Str × List (Str × ℚ)) (hp : p ∈ calculate_aggregations data metricCols) :
    ∃ col ∈ metricCols.take 7, colValues data col ≠ [] ∧
      p.1 = get_label col ∧ p.2 = aggEntry col (colValues data col) ∧
      (isDerivedCol col = true → List.lookup (str "合計") p.2 = none) ∧
      (isDerivedCol col = false →
        List.lookup (str "合計") p.2 = some (sumQ (colValues data col))) ∧
      List.lookup (str "平均") p.2 = some (meanQ (colValues data col)) := by
  unfold calculate_aggregations at hp
  rcases calcAggsAux_mem data _ _ _ hp with h | ⟨col, hcol, hv, he⟩
  · exact absurd h (List.not_mem_nil _)
  · refine ⟨col, hcol, hv, ?_, ?_, ?_, ?_, ?_⟩
    · rw [he]
    · rw [he]
    · intro hder
      rw [he]
      simp [aggEntry_lookup_sum, hder]
    · intro hder
      rw [he]
      simp [aggEntry_lookup_sum, hder]
    · rw [he]
      simp [aggEntry_lookup_mean]

/-- **C5, witness** at a row set with a derived (`cpc`) and a base (`cost`)
metric column. -/
theorem c5_witness :
    (str "CPC", [(str "平均", (3 : ℚ)), (str "最大", 4), (str "最小", 2)]) ∈
      calculate_aggregations c5rows [str "cpc", str "cost"] ∧
    ∃ col ∈ [str "cpc", str "cost"].take 7, colValues c5rows col ≠ [] ∧
      (str "CPC") = get_label col ∧
      ([(str "平均", (3 : ℚ)), (str "最大", 4), (str "最小", 2)] : List (Str × ℚ)) =
        aggEntry col (colValues c5rows col) ∧
      (isDerivedCol col = true →
        List.lookup (str "合計")
          ([(str "平均", (3 : ℚ)), (str "最大", 4), (str "最小", 2)] : List (Str × ℚ)) = none) ∧
      (isDerivedCol col = false →
        List.lookup (str "合計")
          ([(str "平均", (3 : ℚ)), (str "最大", 4), (str "最小", 2)] : List (Str × ℚ)) =
          some (sumQ (colValues c5rows col))) ∧
      List.lookup (str "平均")
        ([(str "平均", (3 : ℚ)), (str "最大", 4), (str "最小", 2)] : List (Str × ℚ)) =
        some (meanQ (colValues c5rows col)) := by
  have hmem : (str "CPC", [(str "平均", (3 : ℚ)), (str "最大", 4), (str "最小", 2)]) ∈
      calculate_aggregations c5rows [str "cpc", str "cost"] := by
    have : calculate_aggregations c5rows [str "cpc", str "cost"] =
        [(str "CPC", [(str "平均", 3), (str "最大", 4), (str "最小", 2)]),
         (str "費用", [(str "合計", 12), (str "平均", 6), (str "最大", 7), (str "最小", 5)])] := by
      with_unfolding_all rfl
    rw [this]
    exact List.mem_cons_self _ _
  exact ⟨hmem, c5_no_sum_for_ratio_metrics c5rows [str "cpc", str "cost"] _ hmem⟩

/- ==========================================================================
Claim C7 — category analysis polarity
========================================================================== -/

instance : IsTotal (Str × ℚ) (fun a b => a.2 ≤ b.2) :=
  ⟨fun a b => le_total a.2 b.2⟩

instance : IsTrans (Str × ℚ) (fun a b => a.2 ≤ b.2) :=
  ⟨fun _ _ _ hab hbc => le_trans hab hbc⟩

theorem head?_mem_list {α : Type} (l : List α) (x : α) (h : l.head? = some x) : x ∈ l := by
  cases l with
  | nil => exact absurd h (by simp)
  | cons a t =>
    simp only [List.head?_cons, Option.some.injEq] at h
    rw [h]
    exact List.mem_cons_self _ _

theorem getLast?_mem_list {α : Type} : ∀ (l : List α) (x : α), l.getLast? = some x → x ∈ l := by
  intro l
  induction l with
  | nil => intro x h; exact absurd h (by simp)
  | cons a t ih =>
    intro x h
    cases t with
    | nil =>
      simp only [List.getLast?_singleton, Option.some.injEq] at h
      rw [h]
      exact List.mem_singleton_self _
    | cons b t2 =>
      rw [List.getLast?_cons_cons] at h
      exact List.mem_cons_of_mem _ (ih x h)

theorem sorted_head_le {l : List (Str × ℚ)}
    (hs : List.Sorted (fun a b : Str × ℚ => a.2 ≤ b.2) l) (x : Str × ℚ)
    (hx : l.head? = some x) : ∀ p ∈ l, x.2 ≤ p.2 := by
  cases l with
  | nil => exact absurd hx (by simp)
  | cons a t =>
    simp only [List.head?_cons, Option.some.injEq] at hx
    subst hx
    intro p hp
    rcases List.mem_cons.mp hp with rfl | hp
    · exact le_refl _
    · exact (List.pairwise_cons.mp hs).1 p hp

theorem sorted_le_getLast :
    ∀ (l : List (Str × ℚ)), List.Sorted (fun a b : Str × ℚ => a.2 ≤ b.2) l →
      ∀ (x : Str × ℚ), l.getLast? = some x → ∀ p ∈ l, p.2 ≤ x.2 := by
  intro l
  induction l with
  | nil => intro _ x hx; exact absurd hx (by simp)
  | cons a t ih =>
    intro hs x hx p hp
    cases t with
    | nil =>
      simp only [List.getLast?_singleton, Option.some.injEq] at hx
      subst hx
      rcases List.mem_cons.mp hp with rfl | hp
      · exact le_refl _
      · exact absurd hp (List.not_mem_nil _)
    | cons b t2 =>
      rw [List.getLast?_cons_cons] at hx
      have hxmem : x ∈ b :: t2 := getLast?_mem_list _ _ hx
      rcases List.mem_cons.mp hp with rfl | hp
      · exact (List.pairwise_cons.mp hs).1 x hxmem
      · exact ih (List.Pairwise.of_cons hs) x hx p hp

/-- **C7, counterexample.**  On categories A (mean 10) and B (mean 30) under
the higher-is-better metric `clicks`, the code returns best = B, worst = A
with ratio 3.0 — the highest mean divided by the lowest — whereas the claim
says the ratio is worst ÷ best = 10/30. -/
theorem c7_counterexample :
    calculate_category_analysis c7clickRows (some (str "name")) (str "clicks") =
      some ⟨⟨str "B", 30⟩, ⟨str "A", 10, 3⟩⟩ ∧
    ¬ calculate_category_analysis c7clickRows (some (str "name")) (str "clicks") =
      some ⟨⟨str "B", 30⟩, ⟨str "A", 10, 10 / 30⟩⟩ := by
  have h : calculate_category_analysis c7clickRows (some (str "name")) (str "clicks") =
      some ⟨⟨str "B", 30⟩, ⟨str "A", 10, 3⟩⟩ := by
    with_unfolding_all rfl
  refine ⟨h, ?_⟩
  rw [h]
  with_unfolding_all decide

/-- **C7, amended.**  Whenever category analysis produces a result: under a
lower-is-better metric (name containing `cpa`/`cpc`/`cost`), best is a
lowest-mean category, worst is a highest-mean category, and the ratio is
worst ÷ best (guarded on best > 0); under any other metric, best is a
highest-mean category and worst a lowest-mean category, and the ratio is
*still* highest ÷ lowest, i.e. best ÷ worst (guarded on worst > 0) — not
worst ÷ best as the claim states.  On the claim's concrete cost-like input
the result is best = A (mean 10), worst = B (mean 30), ratio = 3.0. -/
theorem c7_category_polarity :
    (∀ (data : List Row) (dimension : Option Str) (metric : Str) (ci : CategoryInfo),
      calculate_category_analysis data dimension metric = some ci →
      ∃ dim, dimension = some dim ∧
        2 ≤ (catAvgs data dim metric).length ∧
        (ci.best.name, ci.best.avg) ∈ catAvgs data dim metric ∧
        (ci.worst.name, ci.worst.avg) ∈ catAvgs data dim metric ∧
        (lowerIsBetter metric = true →
          (∀ p ∈ catAvgs data dim metric, ci.best.avg ≤ p.2 ∧ p.2 ≤ ci.worst.avg) ∧
          ci.worst.ratioValue =
            if 0 < ci.best.avg then ci.worst.avg / ci.best.avg else 0) ∧
        (lowerIsBetter metric = false →
          (∀ p ∈ catAvgs data dim metric, ci.worst.avg ≤ p.2 ∧ p.2 ≤ ci.best.avg) ∧
          ci.worst.ratioValue =
            if 0 < ci.worst.avg then ci.best.avg / ci.worst.avg else 0)) ∧
    calculate_category_analysis c7costRows (some (str "name")) (str "cost") =
      some ⟨⟨str "A", 10⟩, ⟨str "B", 30, 3⟩⟩ := by
  constructor
  · intro data dimension metric ci h
    unfold calculate_category_analysis at h
    split at h
    · exact absurd h (by simp)
    · next htr =>
      obtain ⟨dim, rfl⟩ : ∃ dim, dimension = some dim := by
        cases dimension with
        | none => exact (htr (by decide)).elim
        | some d => exact ⟨d, rfl⟩
      refine ⟨dim, rfl, ?_⟩
      dsimp only at h
      split at h
      · exact absurd h (by simp)
      · next hlen =>
        split at h
        · next bc ba wc wa hhead hlast =>
          have hsorted : List.Sorted (fun a b : Str × ℚ => a.2 ≤ b.2)
              (List.insertionSort (fun a b => a.2 ≤ b.2) (catAvgs data dim metric)) :=
            List.sorted_insertionSort _ _
          have hperm := List.perm_insertionSort (fun a b : Str × ℚ => a.2 ≤ b.2)
            (catAvgs data dim metric)
          simp only [Option.getD_some] at hlen hhead hlast
          have hbc_mem : (bc, ba) ∈ catAvgs data dim metric :=
            hperm.mem_iff.mp (head?_mem_list _ _ hhead)
          have hwc_mem : (wc, wa) ∈ catAvgs data dim metric :=
            hperm.mem_iff.mp (getLast?_mem_list _ _ hlast)
          have hmin : ∀ p ∈ catAvgs data dim metric, ba ≤ p.2 := fun p hp =>
            sorted_head_le hsorted (bc, ba) hhead p (hperm.mem_iff.mpr hp)
          have hmax : ∀ p ∈ catAvgs data dim metric, p.2 ≤ wa := fun p hp =>
            sorted_le_getLast _ hsorted (wc, wa) hlast p (hperm.mem_iff.mpr hp)
          have hlen2 : 2 ≤ (catAvgs data dim metric).length := by omega
          split at h
          · next hlb =>
            have hci : (⟨⟨bc, ba⟩, ⟨wc, wa, if 0 < ba then wa / ba else 0⟩⟩ : CategoryInfo) = ci :=
              Option.some.inj h
            subst hci
            refine ⟨hlen2, hbc_mem, hwc_mem, ?_, ?_⟩
            · intro _
              exact ⟨fun p hp => ⟨hmin p hp, hmax p hp⟩, rfl⟩
            · intro hfalse
              rw [hlb] at hfalse
              exact absurd hfalse (by simp)
          · next hlb =>
            have hci : (⟨⟨wc, wa⟩, ⟨bc, ba, if 0 < ba then wa / ba else 0⟩⟩ : CategoryInfo) = ci :=
              Option.some.inj h
            subst hci
            refine ⟨hlen2, hwc_mem, hbc_mem, ?_, ?_⟩
            · intro htrue
              exact absurd htrue hlb
            · intro _
              exact ⟨fun p hp => ⟨hmin p hp, hmax p hp⟩, rfl⟩
        · exact absurd h (by simp)
  · with_unfolding_all rfl

/-- **C7, witness**: the general theorem instantiated at the claim's
concrete cost-like input. -/
theorem c7_witness :
    ∃ dim, some (str "name") = some dim ∧
      2 ≤ (catAvgs c7costRows dim (str "cost")).length ∧
      (str "A", (10 : ℚ)) ∈ catAvgs c7costRows dim (str "cost") ∧
      (str "B", (30 : ℚ)) ∈ catAvgs c7costRows dim (str "cost") ∧
      (lowerIsBetter (str "cost") = true →
        (∀ p ∈ catAvgs c7costRows dim (str "cost"), (10 : ℚ) ≤ p.2 ∧ p.2 ≤ 30) ∧
        (3 : ℚ) = if (0 : ℚ) < 10 then 30 / 10 else 0) ∧
      (lowerIsBetter (str "cost") = false →
        (∀ p ∈ catAvgs c7costRows dim (str "cost"), (30 : ℚ) ≤ p.2 ∧ p.2 ≤ 10) ∧
        (3 : ℚ) = if (0 : ℚ) < 30 then 10 / 30 else 0) :=
  c7_category_polarity.1 c7costRows (some (str "name")) (str "cost")
    ⟨⟨str "A", 10⟩, ⟨str "B", 30, 3⟩⟩ c7_category_polarity.2

/- ==========================================================================
Claim C8 — period comparison
========================================================================== -/

theorem foldl_dictInsert_mem {α : Type} (g : Str → Str) (f : Str → α) :
    ∀ (cols : List Str) (acc : List (Str × α)) (p),
      p ∈ cols.foldl (fun acc c => dictInsert (g c) (f c) acc) acc →
      p ∈ acc ∨ ∃ c ∈ cols, p = (g c, f c) := by
  intro cols
  induction cols with
  | nil => intro acc p hp; exact Or.inl hp
  | cons c cs ih =>
    intro acc p hp
    simp only [List.foldl_cons] at hp
    rcases ih _ _ hp with h | ⟨c', hc', he⟩
    · rcases dictInsert_mem _ _ _ _ h with h' | h'
      · exact Or.inr ⟨c, List.mem_cons_self _ _, h'⟩
      · exact Or.inl h'
    · exact Or.inr ⟨c', List.mem_cons_of_mem _ hc', he⟩

/-- **C8.**  Whenever period comparison produces a result, the date-sorted
row list is split at `floor(n/2)`: the previous half has exactly
`floor(n/2)` rows, the current half the remaining `n - floor(n/2)` (so the
previous half is never larger); every metrics entry comes from one of the
first five metric columns with the two half-sums, their difference, and a
percentage change that is present iff the previous-half sum is non-zero and
equals change ÷ |previous| × 100.  On the claim's six rows with values
10..60 the halves sum to 60 and 150 with change_pct = 150.0. -/
theorem c8_period_comparison :
    (∀ (data : List Row) (metricCols : List Str) (pc : PeriodInfo),
      calculate_period_comparison data metricCols = some pc →
      let rows := periodRows data pc.dateCol
      let prev := rows.take (rows.length / 2)
      let curr := rows.drop (rows.length / 2)
      4 ≤ rows.length ∧
      prev.length = rows.length / 2 ∧
      curr.length = rows.length - rows.length / 2 ∧
      prev.length ≤ curr.length ∧
      ∀ lab e, (lab, e) ∈ pc.metrics →
        ∃ col ∈ metricCols.take 5, lab = get_label col ∧
          e.prevSum = sum_metric prev col ∧
          e.currSum = sum_metric curr col ∧
          e.change = e.currSum - e.prevSum ∧
          e.changePct =
            if e.prevSum ≠ 0 then some (e.change / |e.prevSum| * 100) else none) ∧
    calculate_period_comparison c8rows [str "cost"] =
      some ⟨str "date", str "2024-01-01", str "2024-01-03", str "2024-01-04",
        str "2024-01-06", [(str "費用", ⟨60, 150, 90, some 150⟩)],
        some (str "費用は+150.0%")⟩ := by
  constructor
  · intro data metricCols pc h
    unfold calculate_period_comparison at h
    split at h
    · exact absurd h (by simp)
    · next dcol hdc =>
      dsimp only at h
      split at h
      · exact absurd h (by simp)
      · next hlen4 =>
        split at h
        · exact absurd h (by simp)
        · next huniq =>
          split at h
          · exact absurd h (by simp)
          · next hne =>
            have hpc := Option.some.inj h
            subst hpc
            dsimp only
            have h4 : 4 ≤ (periodRows data dcol).length := by omega
            refine ⟨h4, ?_, ?_, ?_, ?_⟩
            · simp [List.length_take]
              omega
            · simp [List.length_drop]
            · simp [List.length_take, List.length_drop]
              omega
            · intro lab e hmem
              rcases foldl_dictInsert_mem get_label
                  (fun col =>
                    (⟨sum_metric ((periodRows data dcol).take ((periodRows data dcol).length / 2)) col,
                      sum_metric ((periodRows data dcol).drop ((periodRows data dcol).length / 2)) col,
                      sum_metric ((periodRows data dcol).drop ((periodRows data dcol).length / 2)) col -
                        sum_metric ((periodRows data dcol).take ((periodRows data dcol).length / 2)) col,
                      if sum_metric ((periodRows data dcol).take ((periodRows data dcol).length / 2)) col ≠ 0 then
                        some ((sum_metric ((periodRows data dcol).drop ((periodRows data dcol).length / 2)) col -
                          sum_metric ((periodRows data dcol).take ((periodRows data dcol).length / 2)) col) /
                          |sum_metric ((periodRows data dcol).take ((periodRows data dcol).length / 2)) col| * 100)
                      else none⟩ : PCEntry))
                  (metricCols.take 5) [] (lab, e) hmem with h' | ⟨col, hcol, he⟩
              · exact absurd h' (List.not_mem_nil _)
              · have hlab : lab = get_label col := congrArg Prod.fst he
                have hent := congrArg Prod.snd he
                dsimp only at hent
                refine ⟨col, hcol, hlab, ?_, ?_, ?_, ?_⟩ <;> rw [hent]
  · with_unfolding_all rfl

/-- **C8, witness**: the general theorem instantiated at the claim's six
rows. -/
theorem c8_witness :
    (let rows := periodRows c8rows (str "date")
     let prev := rows.take (rows.length / 2)
     let curr := rows.drop (rows.length / 2)
     4 ≤ rows.length ∧
     prev.length = rows.length / 2 ∧
     curr.length = rows.length - rows.length / 2 ∧
     prev.length ≤ curr.length ∧
     ∀ lab e, (lab, e) ∈ [(str "費用", (⟨60, 150, 90, some 150⟩ : PCEntry))] →
       ∃ col ∈ [str "cost"].take 5, lab = get_label col ∧
         e.prevSum = sum_metric prev col ∧
         e.currSum = sum_metric curr col ∧
         e.change = e.currSum - e.prevSum ∧
         e.changePct = if e.prevSum ≠ 0 then some (e.change / |e.prevSum| * 100) else none) :=
  c8_period_comparison.1 c8rows [str "cost"]
    ⟨str "date", str "2024-01-01", str "2024-01-03", str "2024-01-04", str "2024-01-06",
     [(str "費用", ⟨60, 150, 90, some 150⟩)], some (str "費用は+150.0%")⟩
    c8_period_comparison.2
